import Mathlib

/-!
Verification development for the `rfscopedb` data model
(`src/rfscopedb/data_model.py`): the `Scan` aggregate, the signal
analyzer, and the `Query` staged-retrieval protocol, embedded shallowly.
Python dicts are modelled as association lists with insertion-order
overwrite semantics; numeric values are `ℚ` (every IEEE float is a
rational) except where the source takes a real square root.
-/

namespace Rfscopedb

/-- Python dict read `d[k]` / `k in d`, on the association-list model. -/
def dlookup {α : Type} (k : String) : List (String × α) → Option α
  | [] => none
  | (k', v) :: t => if k = k' then some v else dlookup k t

/-- Python dict assignment `d[k] = v`: overwrite in place if the key is
present, otherwise append at the end (insertion order preserved). -/
def dictSet {α : Type} (d : List (String × α)) (k : String) (v : α) :
    List (String × α) :=
  if (dlookup k d).isSome then
    d.map (fun p => if p.1 = k then (k, v) else p)
  else
    d ++ [(k, v)]

/-- Python `d.update(other)`: fold assignment over the entries of `other`. -/
def dictUpdate {α : Type} (d other : List (String × α)) : List (String × α) :=
  other.foldl (fun acc p => dictSet acc p.1 p.2) d

theorem dlookup_append {α : Type} (k : String) (d l : List (String × α)) :
    dlookup k (d ++ l) =
      match dlookup k d with
      | some w => some w
      | none => dlookup k l := by
  induction d with
  | nil => simp [dlookup]
  | cons p t ih =>
    obtain ⟨k', v⟩ := p
    by_cases h : k = k' <;> simp [dlookup, h, ih]

theorem dlookup_overwrite_ne {α : Type} {k k' : String} (v : α)
    (d : List (String × α)) (h : k' ≠ k) :
    dlookup k' (d.map (fun p => if p.1 = k then (k, v) else p)) =
      dlookup k' d := by
  induction d with
  | nil => simp [dlookup]
  | cons p t ih =>
    obtain ⟨a, b⟩ := p
    rw [List.map_cons]
    by_cases ha : a = k
    · have hf : (if ((a, b) : String × α).1 = k then (k, v) else (a, b))
          = (k, v) := by simp [ha]
      rw [hf]
      have hka : k' ≠ a := fun hh => h (hh.trans ha)
      simp [dlookup, h, hka, ih]
    · have hf : (if ((a, b) : String × α).1 = k then (k, v) else (a, b))
          = (a, b) := by simp [ha]
      rw [hf]
      by_cases hk : k' = a <;> simp [dlookup, hk, ih]

theorem dlookup_overwrite_eq {α : Type} {k : String} (v : α)
    (d : List (String × α)) (h : (dlookup k d).isSome) :
    dlookup k (d.map (fun p => if p.1 = k then (k, v) else p)) = some v := by
  induction d with
  | nil => simp [dlookup] at h
  | cons p t ih =>
    obtain ⟨a, b⟩ := p
    rw [List.map_cons]
    by_cases ha : a = k
    · have hf : (if ((a, b) : String × α).1 = k then (k, v) else (a, b))
          = (k, v) := by simp [ha]
      rw [hf]
      simp [dlookup]
    · have hf : (if ((a, b) : String × α).1 = k then (k, v) else (a, b))
          = (a, b) := by simp [ha]
      rw [hf]
      have hk : ¬ k = a := fun hh => ha hh.symm
      simp only [dlookup, hk, if_false] at h ⊢
      exact ih h

theorem dlookup_dictSet {α : Type} (d : List (String × α)) (k k' : String)
    (v : α) :
    dlookup k' (dictSet d k v) = if k' = k then some v else dlookup k' d := by
  unfold dictSet
  by_cases hs : (dlookup k d).isSome
  · simp only [hs, if_true]
    by_cases hk : k' = k
    · subst hk
      simp [dlookup_overwrite_eq v d hs]
    · simp [hk, dlookup_overwrite_ne v d hk]
  · rw [if_neg hs, dlookup_append]
    by_cases hk : k' = k
    · subst hk
      rw [Option.not_isSome_iff_eq_none] at hs
      simp [hs, dlookup]
    · cases hd : dlookup k' d <;> simp [hk, hd, dlookup]

theorem dlookup_eq_none_of_not_mem {α : Type} {k : String}
    {d : List (String × α)} (h : k ∉ d.map Prod.fst) : dlookup k d = none := by
  induction d with
  | nil => rfl
  | cons p t ih =>
    obtain ⟨a, b⟩ := p
    simp only [List.map_cons, List.mem_cons] at h
    push_neg at h
    simp only [dlookup, h.1, if_false]
    exact ih h.2

theorem dlookup_dictUpdate {α : Type} (d other : List (String × α))
    (k : String) (hnd : (other.map Prod.fst).Nodup) :
    dlookup k (dictUpdate d other) =
      match dlookup k other with
      | some w => some w
      | none => dlookup k d := by
  induction other generalizing d with
  | nil => simp [dictUpdate, dlookup]
  | cons p t ih =>
    obtain ⟨a, b⟩ := p
    simp only [List.map_cons, List.nodup_cons] at hnd
    have step : dictUpdate d ((a, b) :: t) = dictUpdate (dictSet d a b) t := rfl
    rw [step, ih _ hnd.2]
    by_cases hk : k = a
    · subst hk
      have ht : dlookup k t = none := dlookup_eq_none_of_not_mem hnd.1
      simp [ht, dlookup, dlookup_dictSet]
    · simp only [dlookup, hk, if_false]
      cases ht : dlookup k t <;> simp [dlookup_dictSet, hk]

/-- The Python error classes raised by this module. -/
inductive PyErr where
  | typeError (msg : String)
  | valueError (msg : String)
  | runtimeError (msg : String)
  | dbError (msg : String)
  deriving DecidableEq

/-- An element of a Python sequence: a number or a non-numeric value. -/
inductive PyVal where
  | num (q : ℚ)
  | str (s : String)
  deriving DecidableEq

def PyVal.isNum : PyVal → Bool
  | .num _ => true
  | .str _ => false

def PyVal.toQ : PyVal → ℚ
  | .num q => q
  | .str _ => 0

/-- A Python object as passed to `analyze_signal`: the three array-like
types accepted by the `isinstance` check, plus non-array-like values. -/
inductive PyObj where
  | list (xs : List PyVal)
  | tuple (xs : List PyVal)
  | ndarray (xs : List PyVal)
  | pyFloat (q : ℚ)
  | pyStr (s : String)
  | pyNone
  deriving DecidableEq

/-- The elements of an array-like object; `none` for the non-array-like
constructors (mirrors `isinstance(arr, (list, np.ndarray, tuple))`). -/
def PyObj.elems : PyObj → Option (List PyVal)
  | .list xs => some xs
  | .tuple xs => some xs
  | .ndarray xs => some xs
  | _ => none

def PyObj.isArrayLike (x : PyObj) : Bool := x.elems.isSome

/-- `np.min` on a nonempty list (0 on the empty list, unreachable here). -/
def minL : List ℚ → ℚ
  | [] => 0
  | h :: t => t.foldl min h

/-- `np.max` on a nonempty list (0 on the empty list, unreachable here). -/
def maxL : List ℚ → ℚ
  | [] => 0
  | h :: t => t.foldl max h

/-- `np.mean`: arithmetic mean. -/
def meanL (xs : List ℚ) : ℚ := xs.sum / xs.length

/-- Ascending sort, as used by `np.median` / `np.percentile`. -/
def sortL (xs : List ℚ) : List ℚ := xs.mergeSort (fun a b => a ≤ b)

/-- `np.median`: middle element, or the average of the two middle
elements for even length. -/
def medianL (xs : List ℚ) : ℚ :=
  let s := sortL xs
  let n := xs.length
  if n % 2 = 1 then s.getD (n / 2) 0
  else (s.getD (n / 2 - 1) 0 + s.getD (n / 2) 0) / 2

/-- `np.percentile` with the default linear interpolation:
position `(n-1)·q/100` between the sorted order statistics. -/
def percentileL (xs : List ℚ) (q : ℚ) : ℚ :=
  let s := sortL xs
  let n := xs.length
  let pos : ℚ := ((n : ℚ) - 1) * q / 100
  let lo : ℕ := (Int.floor pos).toNat
  let frac : ℚ := pos - (lo : ℚ)
  s.getD lo 0 + frac * (s.getD (lo + 1) (s.getD lo 0) - s.getD lo 0)

/-- Population variance `mean((x - mean x)²)`; `np.std` is its square
root. -/
def varL (xs : List ℚ) : ℚ := meanL (xs.map (fun x => (x - meanL xs) ^ 2))

/-- `np.argmax` helper: first index of the maximal element, scanning with
the current best value and index. -/
def argmaxGo : List ℚ → ℚ → ℕ → ℕ → ℕ
  | [], _, bi, _ => bi
  | v :: rest, bv, bi, ci =>
    if bv < v then argmaxGo rest v ci (ci + 1)
    else argmaxGo rest bv bi (ci + 1)

/-- `np.argmax`: index of the first occurrence of the maximum (0 on the
empty list, where NumPy raises). -/
def argmaxIdx : List ℚ → ℕ
  | [] => 0
  | h :: t => argmaxGo t h 0 1

/-- `Query.get_frequency_range(fs, n_samples)`:
`[i * float(fs) / n_samples for i in range(int(n_samples/2) + 1)]`. -/
def Query.get_frequency_range (fs : ℚ) (n_samples : ℕ) : List ℚ :=
  (List.range (n_samples / 2 + 1)).map
    (fun (i : ℕ) => (i : ℚ) * fs / (n_samples : ℚ))

/-- The scalar-metric and array bundles computed by `analyze_signal`
after validation.  `periodogram` is scipy's PSD estimator, an external
collaborator: it is a parameter returning the frequency axis and the
PSD values (floats, hence rationals).  Scalar values live in `ℝ`
because `np.std` and the RMS take square roots. -/
noncomputable def analyzeCore (periodogram : List ℚ → ℚ → List ℚ × List ℚ)
    (arr : List ℚ) (sampling_rate : ℚ) :
    List (String × ℝ) × List (String × List ℚ) :=
  let min_val := minL arr
  let max_val := maxL arr
  let fp := periodogram arr sampling_rate
  ([("minimum", (min_val : ℝ)),
    ("maximum", (max_val : ℝ)),
    ("peak_to_peak", ((max_val - min_val : ℚ) : ℝ)),
    ("mean", (meanL arr : ℝ)),
    ("median", (medianL arr : ℝ)),
    ("standard_deviation", Real.sqrt ((varL arr : ℚ) : ℝ)),
    ("rms", Real.sqrt ((meanL (arr.map (fun x => x ^ 2)) : ℚ) : ℝ)),
    ("25th_quartile", (percentileL arr 25 : ℝ)),
    ("75th_quartile", (percentileL arr 75 : ℝ)),
    ("dominant_frequency", ((fp.1.getD (argmaxIdx fp.2) 0 : ℚ) : ℝ))],
   [("power_spectrum", fp.2)])

/-- `Scan.analyze_signal`: validation in source order — `isinstance`
check (`TypeError`), numeric-dtype check (`ValueError`), exact-length
8192 check (`ValueError`) — then the metric computation. -/
noncomputable def Scan.analyze_signal
    (periodogram : List ℚ → ℚ → List ℚ × List ℚ)
    (arr : PyObj) (sampling_rate : ℚ) :
    Except PyErr (List (String × ℝ) × List (String × List ℚ)) :=
  match arr.elems with
  | none =>
    .error (.typeError "Input must be a list, numpy array, or tuple.")
  | some xs =>
    if ¬ (xs.all PyVal.isNum) then
      .error (.valueError "Input array must contain only numerical values.")
    else if xs.length ≠ 8192 then
      .error (.valueError "Input array must have exactly 8192 elements.")
    else
      .ok (analyzeCore periodogram (xs.map PyVal.toQ) sampling_rate)

/-- The `Scan` aggregate: one capture event's raw waveforms, derived
analysis results, and scan-level metadata.  `start`/`end_` are the
already-formatted timestamp strings (the `datetime`/UTC normalization
helpers live outside this module).  Dicts are association lists. -/
structure Scan where
  id : Option ℕ
  start : String
  end_ : String
  waveform_data : List (String × List (String × List ℚ))
  sampling_rate : List (String × ℚ)
  analysis_scalar : List (String × List (String × List (String × ℝ)))
  analysis_array : List (String × List (String × List (String × List ℚ)))
  scan_data_float : List (String × ℚ)
  scan_data_str : List (String × String)

/-- `Scan.__init__(start, end, sid=None)`: all data attributes empty. -/
def Scan.init (start end_ : String) (sid : Option ℕ) : Scan :=
  { id := sid, start := start, end_ := end_, waveform_data := [],
    sampling_rate := [], analysis_scalar := [], analysis_array := [],
    scan_data_float := [], scan_data_str := [] }

/-- `Scan.add_scan_data(float_data, str_data)`: scan the keys of
`float_data` for one that also occurs in `str_data` (raising
`ValueError` at the first such key, before any mutation), otherwise
`dict.update` both metadata maps.  Returns the post-call object state
together with the raised error, if any. -/
def Scan.add_scan_data (s : Scan) (float_data : List (String × ℚ))
    (str_data : List (String × String)) : Scan × Option PyErr :=
  match float_data.find? (fun p => (dlookup p.1 str_data).isSome) with
  | some _ =>
    (s, some (.valueError
      "A metadata name may only appear once in either the float or str data."))
  | none =>
    ({ s with scan_data_float := dictUpdate s.scan_data_float float_data,
              scan_data_str := dictUpdate s.scan_data_str str_data }, none)

/-- The analysis loop of `Scan.add_cavity_data`: for each signal in
insertion order, skip `"Time"`, otherwise run `analyze_signal` and
store the scalar and array bundles under
`analysis_scalar[cavity][signal]` / `analysis_array[cavity][signal]`.
An exception propagates immediately, leaving the partially mutated
object state. -/
noncomputable def Scan.addSignalsLoop
    (periodogram : List ℚ → ℚ → List ℚ × List ℚ) (cavity : String)
    (sampling_rate : ℚ) :
    Scan → List (String × List ℚ) → Scan × Option PyErr
  | s, [] => (s, none)
  | s, (signal_name, vals) :: rest =>
    if signal_name = "Time" then
      Scan.addSignalsLoop periodogram cavity sampling_rate s rest
    else
      match Scan.analyze_signal periodogram
          (PyObj.ndarray (vals.map PyVal.num)) sampling_rate with
      | .error e => (s, some e)
      | .ok (scalars, arrays) =>
        Scan.addSignalsLoop periodogram cavity sampling_rate
          { s with
            analysis_scalar := dictSet s.analysis_scalar cavity
              (dictSet ((dlookup cavity s.analysis_scalar).getD [])
                signal_name scalars),
            analysis_array := dictSet s.analysis_array cavity
              (dictSet ((dlookup cavity s.analysis_array).getD [])
                signal_name arrays) }
          rest

/-- `Scan.add_cavity_data(cavity, data, sampling_rate)`: store the raw
signal dict and the cavity's sampling rate, reset the cavity's analysis
dicts, then analyze every non-`"Time"` signal in order. -/
noncomputable def Scan.add_cavity_data
    (periodogram : List ℚ → ℚ → List ℚ × List ℚ) (s : Scan)
    (cavity : String) (data : List (String × List ℚ))
    (sampling_rate : ℚ) : Scan × Option PyErr :=
  let s0 : Scan :=
    { s with
      waveform_data := dictSet s.waveform_data cavity data,
      analysis_scalar := dictSet s.analysis_scalar cavity [],
      analysis_array := dictSet s.analysis_array cavity [],
      sampling_rate := dictSet s.sampling_rate cavity sampling_rate }
  Scan.addSignalsLoop periodogram cavity sampling_rate s0 data

/-- One SQL statement issued by `Scan.insert_data`.  JSON-encoding of
array payloads is kept as the array itself.  An `executemany` call is
one statement carrying all its rows. -/
inductive Stmt where
  | scanRow (sid : ℕ) (startS endS : String)
  | selectId
  | waveformRow (wid sid : ℕ) (cavity signal_name : String)
      (sample_rate_hz : ℚ)
  | adataRows (rows : List (ℕ × String × List ℚ))
  | sdataRows (rows : List (ℕ × String × ℝ))
  | fdataRows (rows : List (ℕ × String × ℚ))
  | sdataScanRows (rows : List (ℕ × String × String))

/-- A MySQL connection with autocommit off: durable rows (`committed`),
the open transaction's rows (`pending`), a log of every statement
issued, the auto-increment counters (which MySQL does not roll back),
and `LAST_INSERT_ID()`. -/
structure Conn where
  committed : List Stmt
  pending : List Stmt
  log : List Stmt
  nextScanId : ℕ
  nextWfId : ℕ
  lastInsertId : ℕ

/-- A fresh connection with empty tables and auto-increment ids at 1. -/
def Conn.fresh : Conn :=
  { committed := [], pending := [], log := [], nextScanId := 1,
    nextWfId := 1, lastInsertId := 0 }

/-- Effect of `INSERT INTO scan ...`. -/
def Conn.execInsertScan (startS endS : String) (c : Conn) : Conn :=
  let st := Stmt.scanRow c.nextScanId startS endS
  { c with pending := c.pending ++ [st], log := c.log ++ [st],
           lastInsertId := c.nextScanId, nextScanId := c.nextScanId + 1 }

/-- Effect of `SELECT LAST_INSERT_ID()` (logged, no table change). -/
def Conn.execSelectId (c : Conn) : Conn :=
  { c with log := c.log ++ [Stmt.selectId] }

/-- Effect of `INSERT INTO waveform ...`. -/
def Conn.execInsertWaveform (sid : ℕ) (cavity signal_name : String)
    (rate : ℚ) (c : Conn) : Conn :=
  let st := Stmt.waveformRow c.nextWfId sid cavity signal_name rate
  { c with pending := c.pending ++ [st], log := c.log ++ [st],
           lastInsertId := c.nextWfId, nextWfId := c.nextWfId + 1 }

/-- Effect of a bulk insert statement carrying prebuilt rows. -/
def Conn.execBulk (st : Stmt) (c : Conn) : Conn :=
  { c with pending := c.pending ++ [st], log := c.log ++ [st] }

/-- Effect of `conn.commit()`: the open transaction becomes durable. -/
def Conn.execCommit (c : Conn) : Conn :=
  { c with committed := c.committed ++ c.pending, pending := [] }

/-- Effect of `conn.rollback()`: the open transaction is discarded. -/
def Conn.rollback (c : Conn) : Conn := { c with pending := [] }

/-- The failure oracle: `failAt i = some e` makes the `i`-th statement
(0-based, commit included) raise `e` instead of taking effect. -/
def FailureOracle : Type := ℕ → Option PyErr

/-- The oracle under which every statement succeeds. -/
def noFail : FailureOracle := fun _ => none

/-- Issue one statement: consult the oracle at the current statement
index; on failure the error carries the connection state at raise time. -/
def step (failAt : FailureOracle) (eff : Conn → Conn) :
    Conn × ℕ → Except (PyErr × Conn) (Conn × ℕ)
  | (c, i) =>
    match failAt i with
    | some e => .error (e, c)
    | none => .ok (eff c, i + 1)

/-- Rows passed to the `waveform_adata` `executemany`: the `"raw"` row
holding the untouched waveform, then one row per derived array
(`Scan._insert_waveform_adata`). -/
def adataRowsOf (s : Scan) (cavity signal_name : String) (wid : ℕ) :
    List (ℕ × String × List ℚ) :=
  (wid, "raw", (dlookup signal_name
      ((dlookup cavity s.waveform_data).getD [])).getD []) ::
    ((dlookup signal_name ((dlookup cavity s.analysis_array).getD [])).getD
        []).map (fun p => (wid, p.1, p.2))

/-- Rows passed to the `waveform_sdata` `executemany`: one row per
scalar metric (`Scan._insert_waveform_sdata`). -/
def sdataRowsOf (s : Scan) (cavity signal_name : String) (wid : ℕ) :
    List (ℕ × String × ℝ) :=
  ((dlookup signal_name ((dlookup cavity s.analysis_scalar).getD [])).getD
      []).map (fun p => (wid, p.1, p.2))

/-- Rows for the `scan_fdata` `executemany` (`Scan._insert_scan_fdata`). -/
def fdataRowsOf (s : Scan) (sid : ℕ) : List (ℕ × String × ℚ) :=
  s.scan_data_float.map (fun p => (sid, p.1, p.2))

/-- Rows for the `scan_sdata` `executemany` (`Scan._insert_scan_sdata`). -/
def sdataScanRowsOf (s : Scan) (sid : ℕ) : List (ℕ × String × String) :=
  s.scan_data_str.map (fun p => (sid, p.1, p.2))

/-- The per-signal inner loop of `Scan.insert_data`: skip `"Time"`,
otherwise `_insert_waveform` (insert + id fetch), then
`_insert_waveform_adata` and `_insert_waveform_sdata`. -/
def Scan.insertSignals (failAt : FailureOracle) (s : Scan) (sid : ℕ)
    (cavity : String) :
    List (String × List ℚ) → Conn × ℕ → Except (PyErr × Conn) (Conn × ℕ)
  | [], st => .ok st
  | (signal_name, _) :: rest, st =>
    if signal_name = "Time" then
      Scan.insertSignals failAt s sid cavity rest st
    else do
      let st1 ← step failAt
        (Conn.execInsertWaveform sid cavity signal_name
          ((dlookup cavity s.sampling_rate).getD 0)) st
      let st2 ← step failAt Conn.execSelectId st1
      let wid := st2.1.lastInsertId
      let st3 ← step failAt
        (Conn.execBulk (Stmt.adataRows (adataRowsOf s cavity signal_name wid)))
        st2
      let st4 ← step failAt
        (Conn.execBulk (Stmt.sdataRows (sdataRowsOf s cavity signal_name wid)))
        st3
      Scan.insertSignals failAt s sid cavity rest st4

/-- The per-cavity outer loop of `Scan.insert_data`. -/
def Scan.insertCavities (failAt : FailureOracle) (s : Scan) (sid : ℕ) :
    List (String × List (String × List ℚ)) → Conn × ℕ →
      Except (PyErr × Conn) (Conn × ℕ)
  | [], st => .ok st
  | (cavity, data) :: rest, st => do
    let st1 ← Scan.insertSignals failAt s sid cavity data st
    Scan.insertCavities failAt s sid rest st1

/-- `Scan._insert_scan_fdata`: bulk-insert the scan-level float
metadata; no statement at all when there are no rows. -/
def Scan.insertScanFdata (failAt : FailureOracle) (s : Scan) (sid : ℕ)
    (st : Conn × ℕ) : Except (PyErr × Conn) (Conn × ℕ) :=
  if (fdataRowsOf s sid).length > 0 then
    step failAt (Conn.execBulk (Stmt.fdataRows (fdataRowsOf s sid))) st
  else .ok st

/-- `Scan._insert_scan_sdata`: bulk-insert the scan-level string
metadata; no statement at all when there are no rows. -/
def Scan.insertScanSdata (failAt : FailureOracle) (s : Scan) (sid : ℕ)
    (st : Conn × ℕ) : Except (PyErr × Conn) (Conn × ℕ) :=
  if (sdataScanRowsOf s sid).length > 0 then
    step failAt (Conn.execBulk (Stmt.sdataScanRows (sdataScanRowsOf s sid))) st
  else .ok st

/-- The `try` block of `Scan.insert_data`: insert the scan row and
fetch its id, loop over all cavities/signals, bulk-insert the
scan-level metadata, and commit. -/
def Scan.insertBody (failAt : FailureOracle) (s : Scan) (conn : Conn) :
    Except (PyErr × Conn) (Conn × ℕ) := do
  let st1 ← step failAt (Conn.execInsertScan s.start s.end_) (conn, 0)
  let st2 ← step failAt Conn.execSelectId st1
  let sid := st2.1.lastInsertId
  let st3 ← Scan.insertCavities failAt s sid s.waveform_data st2
  let st4 ← Scan.insertScanFdata failAt s sid st3
  let st5 ← Scan.insertScanSdata failAt s sid st4
  step failAt Conn.execCommit st5

/-- `Scan.insert_data(conn)`: run the transactional body; on any error,
roll back and re-raise that same error.  Returns the Scan object's
state after the call, the connection, and the raised error, if any. -/
def Scan.insert_data (failAt : FailureOracle) (s : Scan) (conn : Conn) :
    Scan × Conn × Option PyErr :=
  match Scan.insertBody failAt s conn with
  | .ok (c, _) => (s, c, none)
  | .error (e, c) => (s, Conn.rollback c, some e)

/-- The opaque filter object passed through to the persistence layer. -/
structure QueryFilter where
  tag : String

/-- One scan-metadata row returned by `query_scan_rows`. -/
structure ScanRow where
  sid : ℕ
  meta : List (String × String)

/-- One waveform data/metadata row (a row dictionary). -/
def WfRow : Type := List (String × String)

/-- The external persistence collaborator (`WaveformDB`), specified only
at its boundary: three pure query functions. -/
structure WaveformDB where
  query_scan_rows :
    Option String → Option String → Option QueryFilter → List ScanRow
  query_waveform_data :
    List ℕ → List String → Option (List String) → List WfRow
  query_waveform_metadata :
    List ℕ → List String → Option (List String) → List WfRow

/-- The `Query` object: configuration plus the staged/run state. -/
structure Query where
  db : WaveformDB
  signal_names : List String
  array_names : Option (List String)
  begin_ : Option String
  end_ : Option String
  scan_filter : Option QueryFilter
  wf_metric_names : Option (List String)
  staged : Bool
  scan_meta : Option (List ScanRow)
  wf_data : Option (List WfRow)
  wf_meta : Option (List WfRow)

/-- `Query.__init__`: configuration stored, `staged = False`, all result
tables `None`. -/
def Query.init (db : WaveformDB) (signal_names : List String)
    (array_names : Option (List String)) (begin_ end_ : Option String)
    (scan_filter : Option QueryFilter)
    (wf_metric_names : Option (List String)) : Query :=
  { db := db, signal_names := signal_names, array_names := array_names,
    begin_ := begin_, end_ := end_, scan_filter := scan_filter,
    wf_metric_names := wf_metric_names, staged := false,
    scan_meta := none, wf_data := none, wf_meta := none }

/-- `Query.stage()`: fetch the scan-metadata rows and mark staged. -/
def Query.stage (q : Query) : Query :=
  let scan_rows := q.db.query_scan_rows q.begin_ q.end_ q.scan_filter
  { q with scan_meta := some scan_rows, staged := true }

/-- `Query.get_scan_count()`: `len(self.scan_meta)` — a `TypeError` when
`scan_meta` is still `None`. -/
def Query.get_scan_count (q : Query) : Except PyErr ℕ :=
  match q.scan_meta with
  | none => .error (.typeError "object of type NoneType has no len()")
  | some rows => .ok rows.length

/-- `Query.run()`: raise `RuntimeError` unless staged, else fetch the
bulk waveform data and metadata for the staged scan ids. -/
def Query.run (q : Query) : Query × Option PyErr :=
  if q.staged = false then
    (q, some (.runtimeError "Query not staged."))
  else
    match q.scan_meta with
    | none => (q, some (.typeError "NoneType has no attribute sid"))
    | some rows =>
      let sids := rows.map ScanRow.sid
      let d := q.db.query_waveform_data sids q.signal_names q.array_names
      let m := q.db.query_waveform_metadata sids q.signal_names
        q.wf_metric_names
      ({ q with wf_data := some d, wf_meta := some m }, none)

theorem dlookup_isSome_iff_mem {α : Type} (k : String)
    (d : List (String × α)) :
    (dlookup k d).isSome ↔ k ∈ d.map Prod.fst := by
  induction d with
  | nil => simp [dlookup]
  | cons p t ih =>
    obtain ⟨a, b⟩ := p
    by_cases h : k = a <;> simp [dlookup, h, ih]

theorem mem_of_dlookup_eq_some {α : Type} {k : String} {v : α}
    {d : List (String × α)} (h : dlookup k d = some v) : (k, v) ∈ d := by
  induction d with
  | nil => simp [dlookup] at h
  | cons p t ih =>
    obtain ⟨a, b⟩ := p
    by_cases hk : k = a
    · subst hk
      have hb : dlookup k ((k, b) :: t) = some b := by simp [dlookup]
      rw [hb] at h
      injection h with h
      subst h
      exact List.mem_cons_self _ _
    · simp only [dlookup, hk, if_false] at h
      exact List.mem_cons.2 (Or.inr (ih h))

/-- C10: when `add_scan_data` raises the duplicate-key `ValueError`, the
`Scan` is unchanged — the disjointness scan over the incoming pair runs
to the raise before either metadata map is updated. -/
theorem Scan.add_scan_data_error_preserves_state (s : Scan)
    (float_data : List (String × ℚ)) (str_data : List (String × String))
    (e : PyErr) (h : (Scan.add_scan_data s float_data str_data).2 = some e) :
    (Scan.add_scan_data s float_data str_data).1 = s := by
  unfold Scan.add_scan_data at h ⊢
  cases hf : float_data.find? (fun p => (dlookup p.1 str_data).isSome) with
  | none => rw [hf] at h; simp at h
  | some p => rfl

theorem Scan.add_scan_data_error_preserves_state_witness :
    (Scan.add_scan_data (Scan.init "s" "e" none) [("A", 1)] [("A", "x")]).2
        = some (.valueError
          "A metadata name may only appear once in either the float or str data.")
      ∧
    (Scan.add_scan_data (Scan.init "s" "e" none) [("A", 1)] [("A", "x")]).1
        = Scan.init "s" "e" none := by
  refine ⟨rfl, ?_⟩
  exact Scan.add_scan_data_error_preserves_state (Scan.init "s" "e" none)
    [("A", 1)] [("A", "x")] _ rfl

/-- C8: `add_scan_data` raises a `ValueError` exactly when a key occurs
in both incoming maps; otherwise both scan-level metadata maps are
updated with mapping-update semantics — incoming entries are looked up
at their new values (overwriting any earlier value for the same key)
and keys not mentioned keep their old values. -/
theorem Scan.add_scan_data_spec (s : Scan) (float_data : List (String × ℚ))
    (str_data : List (String × String))
    (hf : (float_data.map Prod.fst).Nodup)
    (hs : (str_data.map Prod.fst).Nodup) :
    ((Scan.add_scan_data s float_data str_data).2.isSome ↔
      ∃ k, k ∈ float_data.map Prod.fst ∧ k ∈ str_data.map Prod.fst) ∧
    (∀ e, (Scan.add_scan_data s float_data str_data).2 = some e →
      ∃ m, e = PyErr.valueError m) ∧
    ((Scan.add_scan_data s float_data str_data).2 = none →
      (∀ k v, dlookup k float_data = some v →
        dlookup k (Scan.add_scan_data s float_data str_data).1.scan_data_float
          = some v) ∧
      (∀ k v, dlookup k str_data = some v →
        dlookup k (Scan.add_scan_data s float_data str_data).1.scan_data_str
          = some v) ∧
      (∀ k, dlookup k float_data = none →
        dlookup k (Scan.add_scan_data s float_data str_data).1.scan_data_float
          = dlookup k s.scan_data_float) ∧
      (∀ k, dlookup k str_data = none →
        dlookup k (Scan.add_scan_data s float_data str_data).1.scan_data_str
          = dlookup k s.scan_data_str)) := by
  refine ⟨?_, ?_, ?_⟩
  · unfold Scan.add_scan_data
    cases hfind : float_data.find? (fun p => (dlookup p.1 str_data).isSome) with
    | none =>
      simp only [Option.isSome_none, Bool.false_eq_true, false_iff]
      rintro ⟨k, hkf, hks⟩
      obtain ⟨v, hv⟩ := Option.isSome_iff_exists.1
        ((dlookup_isSome_iff_mem k float_data).2 hkf)
      have := List.find?_eq_none.1 hfind _ (mem_of_dlookup_eq_some hv)
      simp [(dlookup_isSome_iff_mem k str_data).2 hks] at this
    | some p =>
      simp only [Option.isSome_some, true_iff]
      have hmem := List.find?_some hfind
      have hpmem := List.mem_of_find?_eq_some hfind
      exact ⟨p.1, List.mem_map.2 ⟨p, hpmem, rfl⟩,
        (dlookup_isSome_iff_mem p.1 str_data).1 hmem⟩
  · intro e he
    unfold Scan.add_scan_data at he
    cases hfind : float_data.find? (fun p => (dlookup p.1 str_data).isSome) with
    | none => rw [hfind] at he; simp at he
    | some p =>
      rw [hfind] at he
      simp only [Option.some.injEq] at he
      exact ⟨_, he.symm⟩
  · intro hok
    unfold Scan.add_scan_data at hok ⊢
    cases hfind : float_data.find? (fun p => (dlookup p.1 str_data).isSome) with
    | some p => rw [hfind] at hok; simp at hok
    | none =>
      refine ⟨?_, ?_, ?_, ?_⟩
      · intro k v hv
        simp only
        rw [dlookup_dictUpdate _ _ _ hf, hv]
      · intro k v hv
        simp only
        rw [dlookup_dictUpdate _ _ _ hs, hv]
      · intro k hv
        simp only
        rw [dlookup_dictUpdate _ _ _ hf, hv]
      · intro k hv
        simp only
        rw [dlookup_dictUpdate _ _ _ hs, hv]

theorem Scan.add_scan_data_spec_witness :
    (Scan.add_scan_data (Scan.init "s" "e" none)
        [("A", 1)] [("A", "x")]).2.isSome ∧
    (Scan.add_scan_data (Scan.init "s" "e" none)
        [("A", 1)] [("B", "x")]).2 = none ∧
    dlookup "A" (Scan.add_scan_data (Scan.init "s" "e" none)
        [("A", 1)] [("B", "x")]).1.scan_data_float = some 1 ∧
    dlookup "B" (Scan.add_scan_data (Scan.init "s" "e" none)
        [("A", 1)] [("B", "x")]).1.scan_data_str = some "x" := by
  have h1 := Scan.add_scan_data_spec (Scan.init "s" "e" none)
    [("A", 1)] [("A", "x")] (by simp) (by simp)
  have h2 := Scan.add_scan_data_spec (Scan.init "s" "e" none)
    [("A", 1)] [("B", "x")] (by simp) (by simp)
  refine ⟨h1.1.2 ⟨"A", by simp, by simp⟩, rfl, ?_, ?_⟩
  · exact (h2.2.2 rfl).1 "A" 1 rfl
  · exact (h2.2.2 rfl).2.1 "B" "x" rfl

/-- C5 counterexample: for the odd sample count `n = 3` the last
element of `get_frequency_range(5000, 3)` is `5000/3`, not the Nyquist
frequency `5000/2` — so the claim's "last element `fs/2`" fails for
odd `n`. -/
theorem Query.get_frequency_range_odd_example :
    (Query.get_frequency_range 5000 3).getLast? = some (5000 / 3) ∧
    ((5000 : ℚ) / 3) ≠ (5000 : ℚ) / 2 := by
  constructor
  · have : Query.get_frequency_range 5000 3
        = [(0 : ℚ) * 5000 / 3, (1 : ℚ) * 5000 / 3] := rfl
    rw [this]
    norm_num
  · norm_num

/-- C5 (amended): `get_frequency_range fs n` is the map of
`i * fs / n` over `i ∈ [0, ⌊n/2⌋]`; it has length `⌊n/2⌋ + 1` and first
element `0` for every `n`, and its last element is the Nyquist
frequency `fs/2` when `n` is even and positive. -/
theorem Query.get_frequency_range_spec (fs : ℚ) (n : ℕ) (hn : 0 < n)
    (he : n % 2 = 0) :
    (Query.get_frequency_range fs n).length = n / 2 + 1 ∧
    (Query.get_frequency_range fs n).head? = some 0 ∧
    (Query.get_frequency_range fs n).getLast? = some (fs / 2) ∧
    ∀ i, i ≤ n / 2 →
      (Query.get_frequency_range fs n).getD i 0 = (i : ℚ) * fs / (n : ℚ) := by
  refine ⟨?_, ?_, ?_, ?_⟩
  · simp [Query.get_frequency_range]
  · rw [Query.get_frequency_range, List.range_succ_eq_map]
    simp
  · rw [Query.get_frequency_range, List.range_succ, List.map_append]
    simp only [List.map_cons, List.map_nil]
    rw [List.getLast?_concat]
    have hne : (n : ℚ) ≠ 0 := Nat.cast_ne_zero.2 hn.ne'
    have h2 : ((n / 2 : ℕ) : ℚ) * 2 = (n : ℚ) := by
      rw [show ((2 : ℚ)) = ((2 : ℕ) : ℚ) from by norm_num, ← Nat.cast_mul,
        Nat.div_mul_cancel (Nat.dvd_of_mod_eq_zero he)]
    have : ((n / 2 : ℕ) : ℚ) * fs / (n : ℚ) = fs / 2 := by
      rw [div_eq_div_iff hne two_ne_zero]
      calc ((n / 2 : ℕ) : ℚ) * fs * 2 = ((n / 2 : ℕ) : ℚ) * 2 * fs := by ring
        _ = (n : ℚ) * fs := by rw [h2]
        _ = fs * (n : ℚ) := by ring
    rw [this]
  · intro i hi
    rw [Query.get_frequency_range]
    have hlt : i < n / 2 + 1 := Nat.lt_succ_of_le hi
    rw [List.getD_eq_getElem?_getD, List.getElem?_map, List.getElem?_range hlt]
    simp

theorem Query.get_frequency_range_spec_witness :
    (0 < 8192 ∧ 8192 % 2 = 0) ∧
    ((Query.get_frequency_range 5000 8192).length = 4097 ∧
      (Query.get_frequency_range 5000 8192).head? = some 0 ∧
      (Query.get_frequency_range 5000 8192).getLast? = some 2500 ∧
      (Query.get_frequency_range 5000 8192).getD 1 0
        = (1 : ℚ) * 5000 / 8192) := by
  have h := Query.get_frequency_range_spec 5000 8192 (by norm_num)
    (by norm_num)
  refine ⟨⟨by norm_num, by norm_num⟩, h.1, h.2.1, ?_, ?_⟩
  · have := h.2.2.1
    norm_num at this
    simpa using this
  · exact h.2.2.2 1 (by norm_num)

/-- C7: `run()` before staging raises `RuntimeError` and leaves the
query unchanged (a freshly constructed query has `wf_data = wf_meta =
None`); after `stage()`, `get_scan_count()` is the number of rows the
metadata query returned; and `stage()` stores the fresh metadata result
regardless of any previously staged rows. -/
theorem Query.protocol_spec (q : Query) :
    (q.staged = false →
      Query.run q = (q, some (.runtimeError "Query not staged."))) ∧
    ((Query.stage q).get_scan_count
      = .ok (q.db.query_scan_rows q.begin_ q.end_ q.scan_filter).length) ∧
    ((Query.stage q).scan_meta
      = some (q.db.query_scan_rows q.begin_ q.end_ q.scan_filter)) ∧
    ((Query.stage q).staged = true) ∧
    (∀ db sn an b e sf wn,
      (Query.init db sn an b e sf wn).staged = false ∧
      (Query.init db sn an b e sf wn).wf_data = none ∧
      (Query.init db sn an b e sf wn).wf_meta = none) := by
  refine ⟨?_, rfl, rfl, rfl, fun db sn an b e sf wn => ⟨rfl, rfl, rfl⟩⟩
  intro h
  unfold Query.run
  rw [h]
  simp

/-- A concrete in-memory database used to instantiate the `Query`
protocol theorem. -/
def dbExample : WaveformDB :=
  { query_scan_rows := fun _ _ _ => [{ sid := 7, meta := [] }],
    query_waveform_data := fun _ _ _ => [],
    query_waveform_metadata := fun _ _ _ => [] }

theorem Query.protocol_spec_witness :
    (Query.run (Query.init dbExample ["GMES"] none none none none none)
      = (Query.init dbExample ["GMES"] none none none none none,
         some (.runtimeError "Query not staged."))) ∧
    ((Query.stage (Query.init dbExample ["GMES"] none none none none none)).get_scan_count
      = .ok 1) ∧
    ((Query.init dbExample ["GMES"] none none none none none).wf_data = none) := by
  have h := Query.protocol_spec (Query.init dbExample ["GMES"] none none none none none)
  exact ⟨h.1 rfl, h.2.1, (h.2.2.2.2 dbExample ["GMES"] none none none none none).2.1⟩

theorem argmaxGo_spec (rest : List ℚ) : ∀ (bv : ℚ) (bi ci : ℕ),
    (argmaxGo rest bv bi ci = bi ∧ ∀ v ∈ rest, v ≤ bv) ∨
    (∃ j, j < rest.length ∧ argmaxGo rest bv bi ci = ci + j ∧
      bv < rest.getD j 0 ∧ ∀ v ∈ rest, v ≤ rest.getD j 0) := by
  induction rest with
  | nil =>
    intro bv bi ci
    exact Or.inl ⟨rfl, by simp⟩
  | cons v rest ih =>
    intro bv bi ci
    by_cases h : bv < v
    · have hstep : argmaxGo (v :: rest) bv bi ci = argmaxGo rest v ci (ci + 1) := by
        simp [argmaxGo, h]
      rcases ih v ci (ci + 1) with ⟨heq, hall⟩ | ⟨j, hj, heq, hgt, hall⟩
      · refine Or.inr ⟨0, by simp, ?_, by simpa using h, ?_⟩
        · rw [hstep, heq]
          omega
        · intro w hw
          rcases List.mem_cons.1 hw with rfl | hw
          · simp
          · simpa using hall w hw
      · refine Or.inr ⟨j + 1, by simpa using Nat.succ_lt_succ hj, ?_, ?_, ?_⟩
        · rw [hstep, heq]
          omega
        · simpa using lt_trans h hgt
        · intro w hw
          rcases List.mem_cons.1 hw with rfl | hw
          · simpa using le_of_lt hgt
          · simpa using hall w hw
    · have hstep : argmaxGo (v :: rest) bv bi ci = argmaxGo rest bv bi (ci + 1) := by
        simp [argmaxGo, h]
      rcases ih bv bi (ci + 1) with ⟨heq, hall⟩ | ⟨j, hj, heq, hgt, hall⟩
      · refine Or.inl ⟨by rw [hstep, heq], ?_⟩
        intro w hw
        rcases List.mem_cons.1 hw with rfl | hw
        · exact le_of_not_lt h
        · exact hall w hw
      · refine Or.inr ⟨j + 1, by simpa using Nat.succ_lt_succ hj, ?_, ?_, ?_⟩
        · rw [hstep, heq]
          omega
        · simpa using hgt
        · intro w hw
          rcases List.mem_cons.1 hw with rfl | hw
          · simpa using le_trans (le_of_not_lt h) (le_of_lt hgt)
          · simpa using hall w hw

theorem getD_mem_of_lt {xs : List ℚ} {j : ℕ} (h : j < xs.length) :
    xs.getD j 0 ∈ xs := by
  rw [List.getD_eq_getElem?_getD, List.getElem?_eq_getElem h]
  simp

theorem argmaxIdx_spec (xs : List ℚ) (h : xs ≠ []) :
    argmaxIdx xs < xs.length ∧
    ∀ j, j < xs.length → xs.getD j 0 ≤ xs.getD (argmaxIdx xs) 0 := by
  match xs with
  | x :: t =>
    have hidx : argmaxIdx (x :: t) = argmaxGo t x 0 1 := rfl
    rcases argmaxGo_spec t x 0 1 with ⟨heq, hall⟩ | ⟨j, hj, heq, hgt, hall⟩
    · rw [hidx, heq]
      refine ⟨by simp, ?_⟩
      intro j hjl
      match j with
      | 0 => simp
      | k + 1 =>
        simp only [List.getD_cons_succ, List.getD_cons_zero]
        exact hall _ (getD_mem_of_lt (by simpa using hjl))
    · rw [hidx, heq]
      have hadd : 1 + j = j + 1 := Nat.add_comm 1 j
      refine ⟨by simpa [hadd] using Nat.succ_lt_succ hj, ?_⟩
      intro j' hj'
      rw [hadd]
      simp only [List.getD_cons_succ]
      match j' with
      | 0 => simpa using le_of_lt hgt
      | k + 1 =>
        simp only [List.getD_cons_succ]
        exact hall _ (getD_mem_of_lt (by simpa using hj'))

theorem all_isNum_map_num (xs : List ℚ) :
    (xs.map PyVal.num).all PyVal.isNum = true := by
  induction xs with
  | nil => rfl
  | cons x t ih => simp [PyVal.isNum, ih]

theorem map_toQ_map_num (xs : List ℚ) :
    (xs.map PyVal.num).map PyVal.toQ = xs := by
  induction xs with
  | nil => rfl
  | cons x t ih => simpa [PyVal.toQ] using ih

theorem analyze_signal_numeric_list (pg : List ℚ → ℚ → List ℚ × List ℚ)
    (xs : List ℚ) (fs : ℚ) (h : xs.length = 8192) :
    Scan.analyze_signal pg (PyObj.ndarray (xs.map PyVal.num)) fs
      = .ok (analyzeCore pg xs fs) := by
  unfold Scan.analyze_signal
  simp only [PyObj.elems, all_isNum_map_num, not_true, if_false,
    List.length_map, h, map_toQ_map_num]
  simp

theorem addSignalsLoop_err (pg : List ℚ → ℚ → List ℚ × List ℚ)
    (cavity : String) (rate : ℚ) :
    ∀ (sigs : List (String × List ℚ)) (s : Scan),
      (∃ p ∈ sigs, p.1 ≠ "Time" ∧ p.2.length ≠ 8192) →
      (Scan.addSignalsLoop pg cavity rate s sigs).2.isSome = true := by
  have herrlen : ∀ (vals : List ℚ), vals.length ≠ 8192 →
      Scan.analyze_signal pg (PyObj.ndarray (vals.map PyVal.num)) rate
        = .error (.valueError "Input array must have exactly 8192 elements.") := by
    intro vals hlen
    unfold Scan.analyze_signal
    simp only [PyObj.elems, all_isNum_map_num, not_true, if_false,
      List.length_map]
    simp [hlen]
  intro sigs
  induction sigs with
  | nil =>
    rintro s ⟨p, hp, _⟩
    simp at hp
  | cons q rest ih =>
    rintro s ⟨p, hp, hnt, hlen⟩
    obtain ⟨sig0, vals0⟩ := q
    by_cases ht : sig0 = "Time"
    · have hstep : Scan.addSignalsLoop pg cavity rate s ((sig0, vals0) :: rest)
          = Scan.addSignalsLoop pg cavity rate s rest := by
        simp [Scan.addSignalsLoop, ht]
      rw [hstep]
      rcases List.mem_cons.1 hp with rfl | hp'
      · exact absurd ht hnt
      · exact ih s ⟨p, hp', hnt, hlen⟩
    · cases hres : Scan.analyze_signal pg
          (PyObj.ndarray (vals0.map PyVal.num)) rate with
      | error e =>
        have hstep : Scan.addSignalsLoop pg cavity rate s ((sig0, vals0) :: rest)
            = (s, some e) := by
          simp [Scan.addSignalsLoop, ht, hres]
        rw [hstep]
        rfl
      | ok pr =>
        have hv0 : vals0.length = 8192 := by
          by_contra hbad
          rw [herrlen vals0 hbad] at hres
          exact absurd hres (by simp)
        obtain ⟨scalars, arrays⟩ := pr
        have hstep : Scan.addSignalsLoop pg cavity rate s ((sig0, vals0) :: rest)
            = Scan.addSignalsLoop pg cavity rate
              { s with
                analysis_scalar := dictSet s.analysis_scalar cavity
                  (dictSet ((dlookup cavity s.analysis_scalar).getD [])
                    sig0 scalars),
                analysis_array := dictSet s.analysis_array cavity
                  (dictSet ((dlookup cavity s.analysis_array).getD [])
                    sig0 arrays) }
              rest := by
          simp [Scan.addSignalsLoop, ht, hres]
        rw [hstep]
        rcases List.mem_cons.1 hp with rfl | hp'
        · exact absurd hv0 hlen
        · exact ih _ ⟨p, hp', hnt, hlen⟩

/-- C6: `analyze_signal` raises `TypeError` on every non-array-like
input, `ValueError` on a non-numeric element, `ValueError` on any
length other than 8192 — and these are raised at analysis time:
`add_cavity_data` on a cavity containing a bad non-`"Time"` signal
itself returns an error rather than deferring it to persistence. -/
theorem Scan.analyze_signal_validation (pg : List ℚ → ℚ → List ℚ × List ℚ)
    (fs : ℚ) :
    (∀ x : PyObj, x.isArrayLike = false →
      Scan.analyze_signal pg x fs
        = .error (.typeError "Input must be a list, numpy array, or tuple.")) ∧
    (∀ (x : PyObj) (xs : List PyVal), x.elems = some xs →
      xs.all PyVal.isNum = false →
      Scan.analyze_signal pg x fs
        = .error (.valueError "Input array must contain only numerical values.")) ∧
    (∀ (x : PyObj) (xs : List PyVal), x.elems = some xs →
      xs.all PyVal.isNum = true → xs.length ≠ 8192 →
      Scan.analyze_signal pg x fs
        = .error (.valueError "Input array must have exactly 8192 elements.")) ∧
    (∀ (s : Scan) (cavity : String) (data : List (String × List ℚ))
        (rate : ℚ),
      (∃ p ∈ data, p.1 ≠ "Time" ∧ p.2.length ≠ 8192) →
      (Scan.add_cavity_data pg s cavity data rate).2.isSome = true) := by
  refine ⟨?_, ?_, ?_, ?_⟩
  · intro x hx
    cases x <;> simp [PyObj.isArrayLike, PyObj.elems] at hx ⊢ <;>
      rfl
  · intro x xs hx hall
    unfold Scan.analyze_signal
    rw [hx]
    simp [hall]
  · intro x xs hx hall hlen
    unfold Scan.analyze_signal
    rw [hx]
    simp [hall, hlen]
  · intro s cavity data rate hbad
    exact addSignalsLoop_err pg cavity rate data _ hbad

/-- A trivial periodogram stub used to instantiate analyzer theorems. -/
def pgZero : List ℚ → ℚ → List ℚ × List ℚ := fun _ _ => ([], [])

theorem Scan.analyze_signal_validation_witness :
    Scan.analyze_signal pgZero (PyObj.pyFloat 3) 5000
      = .error (.typeError "Input must be a list, numpy array, or tuple.") ∧
    Scan.analyze_signal pgZero (PyObj.list [PyVal.num 1, PyVal.str "a"]) 5000
      = .error (.valueError "Input array must contain only numerical values.") ∧
    Scan.analyze_signal pgZero
        (PyObj.ndarray (List.replicate 100 (PyVal.num 0))) 5000
      = .error (.valueError "Input array must have exactly 8192 elements.") ∧
    (Scan.add_cavity_data pgZero (Scan.init "s" "e" none) "R1"
        [("GMES", [1, 2, 3])] 5000).2.isSome = true := by
  have h := Scan.analyze_signal_validation pgZero 5000
  refine ⟨h.1 _ rfl, h.2.1 _ _ rfl rfl,
    h.2.2.1 _ _ rfl (by decide) (by decide), ?_⟩
  exact h.2.2.2 _ _ _ _ ⟨("GMES", [1, 2, 3]), by simp, by decide, by decide⟩

/-- A periodogram stub with a nonempty PSD, for the metrics witness. -/
def pgConst : List ℚ → ℚ → List ℚ × List ℚ := fun _ _ => ([0, 1], [2, 5])

/-- C4: on a valid numeric 8192-sample array, `analyze_signal` returns
exactly the ten named scalar metrics and the power-spectrum array, with
`peak_to_peak = maximum - minimum`, `rms = sqrt(mean(x²))`, and
`dominant_frequency` the frequency at an index where the PSD estimate
attains its maximum. -/
theorem Scan.analyze_signal_metrics (pg : List ℚ → ℚ → List ℚ × List ℚ)
    (xs : List ℚ) (fs : ℚ) (h : xs.length = 8192)
    (hp : (pg xs fs).2 ≠ []) :
    ∃ scalars arrays,
      Scan.analyze_signal pg (PyObj.ndarray (xs.map PyVal.num)) fs
        = .ok (scalars, arrays) ∧
      scalars.map Prod.fst =
        ["minimum", "maximum", "peak_to_peak", "mean", "median",
         "standard_deviation", "rms", "25th_quartile", "75th_quartile",
         "dominant_frequency"] ∧
      arrays.map Prod.fst = ["power_spectrum"] ∧
      dlookup "minimum" scalars = some ((minL xs : ℝ)) ∧
      dlookup "maximum" scalars = some ((maxL xs : ℝ)) ∧
      dlookup "peak_to_peak" scalars
        = some ((maxL xs : ℝ) - (minL xs : ℝ)) ∧
      dlookup "rms" scalars
        = some (Real.sqrt ((meanL (xs.map (fun x => x ^ 2)) : ℚ) : ℝ)) ∧
      dlookup "power_spectrum" arrays = some (pg xs fs).2 ∧
      ∃ k, k < (pg xs fs).2.length ∧
        (∀ j, j < (pg xs fs).2.length →
          (pg xs fs).2.getD j 0 ≤ (pg xs fs).2.getD k 0) ∧
        dlookup "dominant_frequency" scalars
          = some (((pg xs fs).1.getD k 0 : ℚ) : ℝ) := by
  refine ⟨(analyzeCore pg xs fs).1, (analyzeCore pg xs fs).2,
    by rw [analyze_signal_numeric_list pg xs fs h], ?_, ?_, ?_, ?_, ?_, ?_,
    ?_, ?_⟩
  · rfl
  · rfl
  · rfl
  · rfl
  · have hpp : dlookup "peak_to_peak" (analyzeCore pg xs fs).1
        = some ((maxL xs - minL xs : ℚ) : ℝ) := rfl
    rw [hpp]
    push_cast
    rfl
  · rfl
  · rfl
  · refine ⟨argmaxIdx (pg xs fs).2, (argmaxIdx_spec _ hp).1,
      (argmaxIdx_spec _ hp).2, rfl⟩

theorem Scan.analyze_signal_metrics_witness :
    (List.replicate 8192 (0 : ℚ)).length = 8192 ∧
    (pgConst (List.replicate 8192 (0 : ℚ)) 5000).2 ≠ [] ∧
    ∃ scalars arrays,
      Scan.analyze_signal pgConst
          (PyObj.ndarray ((List.replicate 8192 (0 : ℚ)).map PyVal.num)) 5000
        = .ok (scalars, arrays) ∧
      scalars.map Prod.fst =
        ["minimum", "maximum", "peak_to_peak", "mean", "median",
         "standard_deviation", "rms", "25th_quartile", "75th_quartile",
         "dominant_frequency"] ∧
      arrays.map Prod.fst = ["power_spectrum"] ∧
      dlookup "minimum" scalars
        = some ((minL (List.replicate 8192 (0 : ℚ)) : ℝ)) ∧
      dlookup "maximum" scalars
        = some ((maxL (List.replicate 8192 (0 : ℚ)) : ℝ)) ∧
      dlookup "peak_to_peak" scalars
        = some ((maxL (List.replicate 8192 (0 : ℚ)) : ℝ)
            - (minL (List.replicate 8192 (0 : ℚ)) : ℝ)) ∧
      dlookup "rms" scalars
        = some (Real.sqrt
            ((meanL ((List.replicate 8192 (0 : ℚ)).map (fun x => x ^ 2)) :
              ℚ) : ℝ)) ∧
      dlookup "power_spectrum" arrays
        = some (pgConst (List.replicate 8192 (0 : ℚ)) 5000).2 ∧
      ∃ k, k < (pgConst (List.replicate 8192 (0 : ℚ)) 5000).2.length ∧
        (∀ j, j < (pgConst (List.replicate 8192 (0 : ℚ)) 5000).2.length →
          (pgConst (List.replicate 8192 (0 : ℚ)) 5000).2.getD j 0
            ≤ (pgConst (List.replicate 8192 (0 : ℚ)) 5000).2.getD k 0) ∧
        dlookup "dominant_frequency" scalars
          = some (((pgConst (List.replicate 8192 (0 : ℚ)) 5000).1.getD k 0 :
              ℚ) : ℝ) := by
  refine ⟨List.length_replicate 8192 0, by decide, ?_⟩
  exact Scan.analyze_signal_metrics pgConst (List.replicate 8192 (0 : ℚ)) 5000
    (List.length_replicate 8192 0) (by decide)

/-- The computation `m` keeps the committed tables of `c0` intact on
every outcome (ok or error). -/
def PreservesC (m : Except (PyErr × Conn) (Conn × ℕ)) (c0 : Conn) : Prop :=
  (∀ c i, m = .ok (c, i) → c.committed = c0.committed) ∧
  (∀ e c, m = .error (e, c) → c.committed = c0.committed)

/-- The computation `m` keeps the committed tables of `c0` intact on the
error outcome. -/
def ErrPreservesC (m : Except (PyErr × Conn) (Conn × ℕ)) (c0 : Conn) :
    Prop :=
  ∀ e c, m = .error (e, c) → c.committed = c0.committed

/-- Every error produced by `m` comes from the failure oracle. -/
def ErrsFromOracle (failAt : FailureOracle)
    (m : Except (PyErr × Conn) (Conn × ℕ)) : Prop :=
  ∀ e c, m = .error (e, c) → ∃ j, failAt j = some e

theorem step_eq_error {failAt : FailureOracle} {eff : Conn → Conn}
    {c : Conn} {i : ℕ} {e : PyErr} (hf : failAt i = some e) :
    step failAt eff (c, i) = .error (e, c) := by
  simp [step, hf]

theorem step_eq_ok {failAt : FailureOracle} {eff : Conn → Conn}
    {c : Conn} {i : ℕ} (hf : failAt i = none) :
    step failAt eff (c, i) = .ok (eff c, i + 1) := by
  simp [step, hf]

theorem exc_bind_error {e : PyErr × Conn}
    {f : Conn × ℕ → Except (PyErr × Conn) (Conn × ℕ)} :
    ((Except.error e : Except (PyErr × Conn) (Conn × ℕ)) >>= f)
      = Except.error e := rfl

theorem exc_bind_ok {st : Conn × ℕ}
    {f : Conn × ℕ → Except (PyErr × Conn) (Conn × ℕ)} :
    ((Except.ok st : Except (PyErr × Conn) (Conn × ℕ)) >>= f) = f st := rfl

theorem preservesC_ok {c0 : Conn} (st : Conn × ℕ)
    (h : st.1.committed = c0.committed) :
    PreservesC (.ok st) c0 := by
  constructor
  · intro c i hc
    injection hc with hc
    subst hc
    exact h
  · intro e c hc
    exact absurd hc (by simp)

theorem errsFromOracle_ok (failAt : FailureOracle) (st : Conn × ℕ) :
    ErrsFromOracle failAt (.ok st) := by
  intro e c hc
  exact absurd hc (by simp)

theorem preservesC_bind {m : Except (PyErr × Conn) (Conn × ℕ)}
    {f : Conn × ℕ → Except (PyErr × Conn) (Conn × ℕ)} {c0 : Conn}
    (hm : PreservesC m c0)
    (hf : ∀ st, m = .ok st → PreservesC (f st) st.1) :
    PreservesC (m >>= f) c0 := by
  cases m with
  | error p =>
    rw [exc_bind_error]
    constructor
    · intro c' i h
      exact absurd h (by simp)
    · intro e' c' h
      injection h with h
      subst h
      exact hm.2 _ _ rfl
  | ok st =>
    rw [exc_bind_ok]
    have hst : st.1.committed = c0.committed := hm.1 st.1 st.2 (by rfl)
    have hfst := hf st rfl
    constructor
    · intro c' i h
      rw [hfst.1 c' i h]
      exact hst
    · intro e' c' h
      rw [hfst.2 e' c' h]
      exact hst

theorem errPreservesC_bind {m : Except (PyErr × Conn) (Conn × ℕ)}
    {f : Conn × ℕ → Except (PyErr × Conn) (Conn × ℕ)} {c0 : Conn}
    (hm : PreservesC m c0)
    (hf : ∀ st, m = .ok st → ErrPreservesC (f st) st.1) :
    ErrPreservesC (m >>= f) c0 := by
  cases m with
  | error p =>
    rw [exc_bind_error]
    intro e' c' h
    injection h with h
    subst h
    exact hm.2 _ _ rfl
  | ok st =>
    rw [exc_bind_ok]
    intro e' c' h
    rw [hf st rfl e' c' h]
    exact hm.1 st.1 st.2 (by rfl)

theorem errsFromOracle_bind {failAt : FailureOracle}
    {m : Except (PyErr × Conn) (Conn × ℕ)}
    {f : Conn × ℕ → Except (PyErr × Conn) (Conn × ℕ)}
    (hm : ErrsFromOracle failAt m)
    (hf : ∀ st, m = .ok st → ErrsFromOracle failAt (f st)) :
    ErrsFromOracle failAt (m >>= f) := by
  cases m with
  | error p =>
    rw [exc_bind_error]
    intro e' c' h
    injection h with h
    subst h
    exact hm _ _ rfl
  | ok st =>
    rw [exc_bind_ok]
    intro e' c' h
    exact hf st rfl e' c' h

theorem step_preservesC (failAt : FailureOracle) (eff : Conn → Conn)
    (st : Conn × ℕ) (heff : ∀ c, (eff c).committed = c.committed) :
    PreservesC (step failAt eff st) st.1 := by
  obtain ⟨c, i⟩ := st
  cases hf : failAt i with
  | some e =>
    rw [step_eq_error hf]
    constructor
    · intro c' i' h
      exact absurd h (by simp)
    · intro e' c' h
      injection h with h
      rw [show c' = c from congrArg Prod.snd h.symm]
  | none =>
    rw [step_eq_ok hf]
    constructor
    · intro c' i' h
      injection h with h
      rw [show c' = eff c from congrArg Prod.fst h.symm]
      exact heff c
    · intro e' c' h
      exact absurd h (by simp)

theorem step_errPreservesC (failAt : FailureOracle) (eff : Conn → Conn)
    (st : Conn × ℕ) : ErrPreservesC (step failAt eff st) st.1 := by
  obtain ⟨c, i⟩ := st
  cases hf : failAt i with
  | some e =>
    rw [step_eq_error hf]
    intro e' c' h
    injection h with h
    rw [show c' = c from congrArg Prod.snd h.symm]
  | none =>
    rw [step_eq_ok hf]
    intro e' c' h
    exact absurd h (by simp)

theorem step_errsFromOracle (failAt : FailureOracle) (eff : Conn → Conn)
    (st : Conn × ℕ) : ErrsFromOracle failAt (step failAt eff st) := by
  obtain ⟨c, i⟩ := st
  cases hf : failAt i with
  | some e =>
    rw [step_eq_error hf]
    intro e' c' h
    injection h with h
    exact ⟨i, by rw [hf, show e = e' from congrArg Prod.fst h]⟩
  | none =>
    rw [step_eq_ok hf]
    intro e' c' h
    exact absurd h (by simp)

theorem insertSignals_preservesC (failAt : FailureOracle) (s : Scan)
    (sid : ℕ) (cavity : String) :
    ∀ (sigs : List (String × List ℚ)) (st : Conn × ℕ),
      PreservesC (Scan.insertSignals failAt s sid cavity sigs st) st.1 ∧
      ErrsFromOracle failAt
        (Scan.insertSignals failAt s sid cavity sigs st) := by
  intro sigs
  induction sigs with
  | nil =>
    intro st
    exact ⟨preservesC_ok st rfl, errsFromOracle_ok failAt st⟩
  | cons q rest ih =>
    intro st
    obtain ⟨signal_name, vals⟩ := q
    by_cases ht : signal_name = "Time"
    · have hstep : Scan.insertSignals failAt s sid cavity
          ((signal_name, vals) :: rest) st
          = Scan.insertSignals failAt s sid cavity rest st := by
        simp [Scan.insertSignals, ht]
      rw [hstep]
      exact ih st
    · have hstep : Scan.insertSignals failAt s sid cavity
          ((signal_name, vals) :: rest) st
          = (step failAt
              (Conn.execInsertWaveform sid cavity signal_name
                ((dlookup cavity s.sampling_rate).getD 0)) st >>= fun st1 =>
             step failAt Conn.execSelectId st1 >>= fun st2 =>
             step failAt (Conn.execBulk (Stmt.adataRows
               (adataRowsOf s cavity signal_name st2.1.lastInsertId))) st2
               >>= fun st3 =>
             step failAt (Conn.execBulk (Stmt.sdataRows
               (sdataRowsOf s cavity signal_name st2.1.lastInsertId))) st3
               >>= fun st4 =>
             Scan.insertSignals failAt s sid cavity rest st4) := by
        simp [Scan.insertSignals, ht]
      rw [hstep]
      constructor
      · refine preservesC_bind (step_preservesC _ _ _ (fun c => rfl))
          (fun st1 h1 => ?_)
        refine preservesC_bind (step_preservesC _ _ _ (fun c => rfl))
          (fun st2 h2 => ?_)
        refine preservesC_bind (step_preservesC _ _ _ (fun c => rfl))
          (fun st3 h3 => ?_)
        refine preservesC_bind (step_preservesC _ _ _ (fun c => rfl))
          (fun st4 h4 => ?_)
        exact (ih st4).1
      · refine errsFromOracle_bind (step_errsFromOracle _ _ _)
          (fun st1 h1 => ?_)
        refine errsFromOracle_bind (step_errsFromOracle _ _ _)
          (fun st2 h2 => ?_)
        refine errsFromOracle_bind (step_errsFromOracle _ _ _)
          (fun st3 h3 => ?_)
        refine errsFromOracle_bind (step_errsFromOracle _ _ _)
          (fun st4 h4 => ?_)
        exact (ih st4).2

theorem insertCavities_preservesC (failAt : FailureOracle) (s : Scan)
    (sid : ℕ) :
    ∀ (cavs : List (String × List (String × List ℚ))) (st : Conn × ℕ),
      PreservesC (Scan.insertCavities failAt s sid cavs st) st.1 ∧
      ErrsFromOracle failAt (Scan.insertCavities failAt s sid cavs st) := by
  intro cavs
  induction cavs with
  | nil =>
    intro st
    exact ⟨preservesC_ok st rfl, errsFromOracle_ok failAt st⟩
  | cons q rest ih =>
    intro st
    obtain ⟨cavity, data⟩ := q
    have hstep : Scan.insertCavities failAt s sid ((cavity, data) :: rest) st
        = (Scan.insertSignals failAt s sid cavity data st >>= fun st1 =>
           Scan.insertCavities failAt s sid rest st1) := by
      simp [Scan.insertCavities]
    rw [hstep]
    constructor
    · exact preservesC_bind (insertSignals_preservesC failAt s sid cavity data st).1
        (fun st1 h1 => (ih st1).1)
    · exact errsFromOracle_bind
        (insertSignals_preservesC failAt s sid cavity data st).2
        (fun st1 h1 => (ih st1).2)

/-- C1: if any statement of `insert_data` fails — the scan row, any
waveform row, array-data or scalar-metric bulk insert, any
scan-metadata bulk insert, or the commit itself — the transaction is
rolled back (no row committed by this call, no open transaction left)
and the very error injected by the failure oracle propagates unchanged
to the caller. -/
theorem insertScanFdata_preservesC (failAt : FailureOracle) (s : Scan)
    (sid : ℕ) (st : Conn × ℕ) :
    PreservesC (Scan.insertScanFdata failAt s sid st) st.1 ∧
    ErrsFromOracle failAt (Scan.insertScanFdata failAt s sid st) := by
  unfold Scan.insertScanFdata
  split
  · exact ⟨step_preservesC _ _ _ (fun c => rfl), step_errsFromOracle _ _ _⟩
  · exact ⟨preservesC_ok st rfl, errsFromOracle_ok failAt st⟩

theorem insertScanSdata_preservesC (failAt : FailureOracle) (s : Scan)
    (sid : ℕ) (st : Conn × ℕ) :
    PreservesC (Scan.insertScanSdata failAt s sid st) st.1 ∧
    ErrsFromOracle failAt (Scan.insertScanSdata failAt s sid st) := by
  unfold Scan.insertScanSdata
  split
  · exact ⟨step_preservesC _ _ _ (fun c => rfl), step_errsFromOracle _ _ _⟩
  · exact ⟨preservesC_ok st rfl, errsFromOracle_ok failAt st⟩

theorem insertBody_errPreservesC (failAt : FailureOracle) (s : Scan)
    (conn : Conn) :
    ErrPreservesC (Scan.insertBody failAt s conn) conn ∧
    ErrsFromOracle failAt (Scan.insertBody failAt s conn) := by
  unfold Scan.insertBody
  constructor
  · refine errPreservesC_bind (step_preservesC _ _ _ (fun c => rfl))
      (fun st1 h1 => ?_)
    refine errPreservesC_bind (step_preservesC _ _ _ (fun c => rfl))
      (fun st2 h2 => ?_)
    refine errPreservesC_bind
      (insertCavities_preservesC failAt s _ s.waveform_data st2).1
      (fun st3 h3 => ?_)
    refine errPreservesC_bind (insertScanFdata_preservesC failAt s _ st3).1
      (fun st4 h4 => ?_)
    refine errPreservesC_bind (insertScanSdata_preservesC failAt s _ st4).1
      (fun st5 h5 => ?_)
    exact step_errPreservesC failAt Conn.execCommit st5
  · refine errsFromOracle_bind (step_errsFromOracle _ _ _)
      (fun st1 h1 => ?_)
    refine errsFromOracle_bind (step_errsFromOracle _ _ _)
      (fun st2 h2 => ?_)
    refine errsFromOracle_bind
      (insertCavities_preservesC failAt s _ s.waveform_data st2).2
      (fun st3 h3 => ?_)
    refine errsFromOracle_bind (insertScanFdata_preservesC failAt s _ st3).2
      (fun st4 h4 => ?_)
    refine errsFromOracle_bind (insertScanSdata_preservesC failAt s _ st4).2
      (fun st5 h5 => ?_)
    exact step_errsFromOracle failAt Conn.execCommit st5

/-- C1: if any statement of `insert_data` fails — the scan row, any
waveform row, array-data or scalar-metric bulk insert, any
scan-metadata bulk insert, or the commit itself — the transaction is
rolled back (no row committed by this call remains, and no open
transaction is left behind) and the very error injected by the failure
oracle propagates unchanged to the caller. -/
theorem Scan.insert_data_rolls_back_on_error (failAt : FailureOracle)
    (s : Scan) (conn : Conn) (e : PyErr)
    (h : (Scan.insert_data failAt s conn).2.2 = some e) :
    (Scan.insert_data failAt s conn).2.1.committed = conn.committed ∧
    (Scan.insert_data failAt s conn).2.1.pending = [] ∧
    ∃ j, failAt j = some e := by
  have hbody := insertBody_errPreservesC failAt s conn
  unfold Scan.insert_data at h ⊢
  cases hres : Scan.insertBody failAt s conn with
  | ok st =>
    obtain ⟨c, i⟩ := st
    rw [hres] at h
    exact Option.noConfusion h
  | error p =>
    obtain ⟨e', c⟩ := p
    rw [hres] at h
    have h' : some e' = some e := h
    injection h' with h'
    subst h'
    exact ⟨hbody.1 e' c hres, rfl, hbody.2 e' c hres⟩

/-- An oracle that fails the very first statement. -/
def failAt0 : FailureOracle :=
  fun i => if i = 0 then some (.dbError "boom") else none

theorem Scan.insert_data_rolls_back_on_error_witness :
    (Scan.insert_data failAt0 (Scan.init "s" "e" none) Conn.fresh).2.2
        = some (.dbError "boom") ∧
    ((Scan.insert_data failAt0 (Scan.init "s" "e" none) Conn.fresh).2.1.committed
        = Conn.fresh.committed ∧
      (Scan.insert_data failAt0 (Scan.init "s" "e" none) Conn.fresh).2.1.pending
        = [] ∧
      ∃ j, failAt0 j = some (.dbError "boom")) := by
  exact ⟨rfl, Scan.insert_data_rolls_back_on_error failAt0
    (Scan.init "s" "e" none) Conn.fresh (.dbError "boom") rfl⟩

/-- C2 counterexample: a successful `insert_data` on a Scan constructed
with `id = None` commits the scan row under the generated id 1, yet the
Scan object's `id` attribute is still `None` afterwards — the source
never assigns `self.id`. -/
theorem Scan.insert_data_id_counterexample :
    (Scan.insert_data noFail (Scan.init "s" "e" none) Conn.fresh).2.2
        = none ∧
    (Scan.insert_data noFail (Scan.init "s" "e" none) Conn.fresh).2.1.committed
        = [Stmt.scanRow 1 "s" "e"] ∧
    (Scan.insert_data noFail (Scan.init "s" "e" none) Conn.fresh).1.id
        = none := ⟨rfl, rfl, rfl⟩

/-- C2 (amended): `insert_data` never mutates the Scan object — in
particular it never assigns `id`; the generated scan id is used only to
key the inserted rows. -/
theorem Scan.insert_data_leaves_scan_unchanged (failAt : FailureOracle)
    (s : Scan) (conn : Conn) :
    (Scan.insert_data failAt s conn).1 = s ∧
    (Scan.insert_data failAt s conn).1.id = s.id := by
  unfold Scan.insert_data
  cases Scan.insertBody failAt s conn with
  | ok st =>
    obtain ⟨c, i⟩ := st
    exact ⟨rfl, rfl⟩
  | error p =>
    obtain ⟨e, c⟩ := p
    exact ⟨rfl, rfl⟩

/-- Number of non-`"Time"` signals in a cavity's data dict (the number
of waveform rows, hence generated waveform ids, that cavity produces). -/
def countNonTime (sigs : List (String × List ℚ)) : ℕ :=
  (sigs.filter (fun p => p.1 ≠ "Time")).length

/-- Spec §4.3 step 2, one (cavity, signal) pair: one waveform-row
insert carrying (scan id, cavity, signal, sampling rate) and its id
fetch, then one bulk array insert — the `"raw"` row with the untouched
waveform plus one row per derived array name — and one bulk scalar
insert with one row per metric name/value pair. -/
def specSignalStmts (s : Scan) (sid : ℕ) (cavity signal_name : String)
    (wid : ℕ) : List Stmt :=
  [Stmt.waveformRow wid sid cavity signal_name
      ((dlookup cavity s.sampling_rate).getD 0),
   Stmt.selectId,
   Stmt.adataRows (adataRowsOf s cavity signal_name wid),
   Stmt.sdataRows (sdataRowsOf s cavity signal_name wid)]

/-- Spec §4.3 step 2 over one cavity's signals in order: every pair
except `"Time"` contributes its four statements, with consecutively
generated waveform ids starting at `wid`. -/
def specSignalsTrace (s : Scan) (sid : ℕ) (cavity : String) :
    ℕ → List (String × List ℚ) → List Stmt
  | _, [] => []
  | wid, (signal_name, _) :: rest =>
    if signal_name = "Time" then specSignalsTrace s sid cavity wid rest
    else specSignalStmts s sid cavity signal_name wid
      ++ specSignalsTrace s sid cavity (wid + 1) rest

/-- Spec §4.3 step 2 over all cavities in order. -/
def specCavitiesTrace (s : Scan) (sid : ℕ) :
    ℕ → List (String × List (String × List ℚ)) → List Stmt
  | _, [] => []
  | wid, (cavity, data) :: rest =>
    specSignalsTrace s sid cavity wid data
      ++ specCavitiesTrace s sid (wid + countNonTime data) rest

/-- The full statement trace of a successful `insert_data` per the
spec: exactly one scan-row insert (and its id fetch), the per-pair
statements, then the scan-level float and string bulk inserts — each
omitted entirely when it has no rows. -/
def specInsertTrace (s : Scan) (sid wid0 : ℕ) : List Stmt :=
  [Stmt.scanRow sid s.start s.end_, Stmt.selectId]
  ++ specCavitiesTrace s sid wid0 s.waveform_data
  ++ (if (fdataRowsOf s sid).length > 0 then
      [Stmt.fdataRows (fdataRowsOf s sid)] else [])
  ++ (if (sdataScanRowsOf s sid).length > 0 then
      [Stmt.sdataScanRows (sdataScanRowsOf s sid)] else [])

theorem noFail_eq_none (i : ℕ) : noFail i = none := rfl

theorem insertSignals_noFail (s : Scan) (sid : ℕ) (cavity : String) :
    ∀ (sigs : List (String × List ℚ)) (c : Conn) (i : ℕ), ∃ c' i',
      Scan.insertSignals noFail s sid cavity sigs (c, i) = .ok (c', i') ∧
      c'.log = c.log ++ specSignalsTrace s sid cavity c.nextWfId sigs ∧
      c'.nextWfId = c.nextWfId + countNonTime sigs ∧
      c'.committed = c.committed ∧
      c'.nextScanId = c.nextScanId := by
  intro sigs
  induction sigs with
  | nil =>
    intro c i
    exact ⟨c, i, rfl, by simp [specSignalsTrace],
      by simp [countNonTime], rfl, rfl⟩
  | cons q rest ih =>
    intro c i
    obtain ⟨signal_name, vals⟩ := q
    by_cases ht : signal_name = "Time"
    · have hstep : Scan.insertSignals noFail s sid cavity
          ((signal_name, vals) :: rest) (c, i)
          = Scan.insertSignals noFail s sid cavity rest (c, i) := by
        simp [Scan.insertSignals, ht]
      obtain ⟨c', i', heq, hlog, hwf, hcom, hscan⟩ := ih c i
      refine ⟨c', i', by rw [hstep, heq], ?_, ?_, hcom, hscan⟩
      · rw [hlog]
        simp [specSignalsTrace, ht]
      · rw [hwf]
        simp [countNonTime, ht]
    · have hstep : Scan.insertSignals noFail s sid cavity
          ((signal_name, vals) :: rest) (c, i)
          = (step noFail
              (Conn.execInsertWaveform sid cavity signal_name
                ((dlookup cavity s.sampling_rate).getD 0)) (c, i)
              >>= fun st1 =>
             step noFail Conn.execSelectId st1 >>= fun st2 =>
             step noFail (Conn.execBulk (Stmt.adataRows
               (adataRowsOf s cavity signal_name st2.1.lastInsertId))) st2
               >>= fun st3 =>
             step noFail (Conn.execBulk (Stmt.sdataRows
               (sdataRowsOf s cavity signal_name st2.1.lastInsertId))) st3
               >>= fun st4 =>
             Scan.insertSignals noFail s sid cavity rest st4) := by
        simp [Scan.insertSignals, ht]
      rw [hstep, step_eq_ok (noFail_eq_none i), exc_bind_ok]
      rw [step_eq_ok (noFail_eq_none _), exc_bind_ok]
      rw [step_eq_ok (noFail_eq_none _), exc_bind_ok]
      rw [step_eq_ok (noFail_eq_none _), exc_bind_ok]
      set c4 : Conn :=
        Conn.execBulk (Stmt.sdataRows (sdataRowsOf s cavity signal_name
          (Conn.execSelectId (Conn.execInsertWaveform sid cavity signal_name
            ((dlookup cavity s.sampling_rate).getD 0) c)).lastInsertId))
          (Conn.execBulk (Stmt.adataRows (adataRowsOf s cavity signal_name
            (Conn.execSelectId (Conn.execInsertWaveform sid cavity signal_name
              ((dlookup cavity s.sampling_rate).getD 0) c)).lastInsertId))
            (Conn.execSelectId (Conn.execInsertWaveform sid cavity signal_name
              ((dlookup cavity s.sampling_rate).getD 0) c))) with hc4
      obtain ⟨c', i', heq, hlog, hwf, hcom, hscan⟩ := ih c4 (i + 1 + 1 + 1 + 1)
      have hc4log : c4.log = c.log ++ specSignalStmts s sid cavity signal_name
          c.nextWfId := by
        rw [hc4]
        simp [Conn.execBulk, Conn.execSelectId, Conn.execInsertWaveform,
          specSignalStmts, List.append_assoc]
      have hc4wf : c4.nextWfId = c.nextWfId + 1 := by
        rw [hc4]
        simp [Conn.execBulk, Conn.execSelectId, Conn.execInsertWaveform]
      have hc4com : c4.committed = c.committed := by
        rw [hc4]
        simp [Conn.execBulk, Conn.execSelectId, Conn.execInsertWaveform]
      have hc4scan : c4.nextScanId = c.nextScanId := by
        rw [hc4]
        simp [Conn.execBulk, Conn.execSelectId, Conn.execInsertWaveform]
      refine ⟨c', i', heq, ?_, ?_, by rw [hcom, hc4com], by rw [hscan, hc4scan]⟩
      · rw [hlog, hc4log, hc4wf]
        simp [specSignalsTrace, ht, List.append_assoc]
      · rw [hwf, hc4wf]
        simp [countNonTime, ht]
        omega

theorem insertCavities_noFail (s : Scan) (sid : ℕ) :
    ∀ (cavs : List (String × List (String × List ℚ))) (c : Conn) (i : ℕ),
      ∃ c' i',
      Scan.insertCavities noFail s sid cavs (c, i) = .ok (c', i') ∧
      c'.log = c.log ++ specCavitiesTrace s sid c.nextWfId cavs ∧
      c'.committed = c.committed ∧
      c'.nextScanId = c.nextScanId := by
  intro cavs
  induction cavs with
  | nil =>
    intro c i
    exact ⟨c, i, rfl, by simp [specCavitiesTrace], rfl, rfl⟩
  | cons q rest ih =>
    intro c i
    obtain ⟨cavity, data⟩ := q
    have hstep : Scan.insertCavities noFail s sid ((cavity, data) :: rest) (c, i)
        = (Scan.insertSignals noFail s sid cavity data (c, i) >>= fun st1 =>
           Scan.insertCavities noFail s sid rest st1) := by
      simp [Scan.insertCavities]
    obtain ⟨c1, i1, heq1, hlog1, hwf1, hcom1, hscan1⟩ :=
      insertSignals_noFail s sid cavity data c i
    obtain ⟨c', i', heq2, hlog2, hcom2, hscan2⟩ := ih c1 i1
    refine ⟨c', i', ?_, ?_, by rw [hcom2, hcom1], by rw [hscan2, hscan1]⟩
    · rw [hstep, heq1, exc_bind_ok, heq2]
    · rw [hlog2, hlog1, hwf1]
      simp [specCavitiesTrace, List.append_assoc]


/-- C3: a failure-free `insert_data` succeeds and issues exactly the
statement trace of the spec: one scan-row insert (with id fetch), then
per non-`"Time"` (cavity, signal) pair one waveform-row insert (scan
id, cavity, signal, sampling rate), one bulk array insert whose rows
are `"raw"` with the untouched waveform plus one row per derived array,
and one bulk scalar insert with one row per metric; finally the
scan-level float/string bulk inserts, each omitted entirely (no
zero-row statement) when its metadata map is empty. -/
theorem Scan.insert_data_emits_spec_trace (s : Scan) (conn : Conn) :
    (Scan.insert_data noFail s conn).2.2 = none ∧
    (Scan.insert_data noFail s conn).2.1.log
      = conn.log ++ specInsertTrace s conn.nextScanId conn.nextWfId ∧
    (fdataRowsOf s conn.nextScanId).length = s.scan_data_float.length ∧
    (sdataScanRowsOf s conn.nextScanId).length = s.scan_data_str.length := by
  have hsid : (Conn.execSelectId
      (Conn.execInsertScan s.start s.end_ conn)).lastInsertId
      = conn.nextScanId := rfl
  have hwf2 : (Conn.execSelectId
      (Conn.execInsertScan s.start s.end_ conn)).nextWfId
      = conn.nextWfId := rfl
  have hlog2 : (Conn.execSelectId
      (Conn.execInsertScan s.start s.end_ conn)).log
      = conn.log
        ++ [Stmt.scanRow conn.nextScanId s.start s.end_, Stmt.selectId] := by
    simp [Conn.execSelectId, Conn.execInsertScan]
  obtain ⟨c3, i3, heq3, hlog3, hcom3, hscan3⟩ :=
    insertCavities_noFail s conn.nextScanId s.waveform_data
      (Conn.execSelectId (Conn.execInsertScan s.start s.end_ conn)) 2
  refine ⟨?_, ?_, by simp [fdataRowsOf], by simp [sdataScanRowsOf]⟩ <;>
  · by_cases hf : (fdataRowsOf s conn.nextScanId).length > 0 <;>
      by_cases hg : (sdataScanRowsOf s conn.nextScanId).length > 0 <;>
    · first
      | (have hstepf : ∀ st : Conn × ℕ,
            Scan.insertScanFdata noFail s conn.nextScanId st
            = .ok (Conn.execBulk
                (Stmt.fdataRows (fdataRowsOf s conn.nextScanId)) st.1,
              st.2 + 1) := by
          intro st
          unfold Scan.insertScanFdata
          rw [if_pos hf]
          obtain ⟨c, i⟩ := st
          rw [step_eq_ok (noFail_eq_none _)])
      | (have hstepf : ∀ st : Conn × ℕ,
            Scan.insertScanFdata noFail s conn.nextScanId st = .ok st := by
          intro st
          unfold Scan.insertScanFdata
          rw [if_neg hf])
      first
      | (have hsteps : ∀ st : Conn × ℕ,
            Scan.insertScanSdata noFail s conn.nextScanId st
            = .ok (Conn.execBulk
                (Stmt.sdataScanRows (sdataScanRowsOf s conn.nextScanId)) st.1,
              st.2 + 1) := by
          intro st
          unfold Scan.insertScanSdata
          rw [if_pos hg]
          obtain ⟨c, i⟩ := st
          rw [step_eq_ok (noFail_eq_none _)])
      | (have hsteps : ∀ st : Conn × ℕ,
            Scan.insertScanSdata noFail s conn.nextScanId st = .ok st := by
          intro st
          unfold Scan.insertScanSdata
          rw [if_neg hg])
      simp only [Scan.insert_data, Scan.insertBody, step, noFail,
        Bind.bind, Except.bind, hsid, heq3, hstepf, hsteps]
      all_goals simp only [Conn.execCommit, Conn.execBulk]
      all_goals
        rw [hlog3, hlog2, hwf2, specInsertTrace]
        simp [hf, hg, List.append_assoc]

/-- Number of entries of the dict `d` carrying the key `k` ("exactly
one bundle" is `countKey = 1`). -/
def countKey {α : Type} (k : String) (d : List (String × α)) : ℕ :=
  (d.filter (fun p => p.1 = k)).length

theorem countKey_eq_zero_of_not_mem {α : Type} {k : String}
    {d : List (String × α)} (h : k ∉ d.map Prod.fst) : countKey k d = 0 := by
  induction d with
  | nil => rfl
  | cons p t ih =>
    obtain ⟨a, b⟩ := p
    simp only [List.map_cons, List.mem_cons] at h
    push_neg at h
    have ha : ¬ a = k := fun hh => h.1 hh.symm
    simp only [countKey, List.filter_cons]
    rw [if_neg (by simpa using ha)]
    exact ih h.2

theorem countKey_eq_one_of_nodup {α : Type} {k : String}
    {d : List (String × α)} (hnd : (d.map Prod.fst).Nodup)
    (h : (dlookup k d).isSome) : countKey k d = 1 := by
  induction d with
  | nil => simp [dlookup] at h
  | cons p t ih =>
    obtain ⟨a, b⟩ := p
    simp only [List.map_cons, List.nodup_cons] at hnd
    by_cases ha : a = k
    · subst ha
      simp only [countKey, List.filter_cons]
      rw [if_pos (by simp)]
      have h0 : countKey a t = 0 := countKey_eq_zero_of_not_mem hnd.1
      simp only [countKey] at h0
      simp [h0]
    · have hk : ¬ k = a := fun hh => ha hh.symm
      simp only [dlookup, hk, if_false] at h
      simp only [countKey, List.filter_cons]
      rw [if_neg (by simpa using ha)]
      exact ih hnd.2 h

theorem nodupKeys_dictSet {α : Type} {d : List (String × α)} (k : String)
    (v : α) (hnd : (d.map Prod.fst).Nodup) :
    ((dictSet d k v).map Prod.fst).Nodup := by
  unfold dictSet
  by_cases hs : (dlookup k d).isSome
  · rw [if_pos hs]
    have hmap : (d.map (fun p => if p.1 = k then (k, v) else p)).map Prod.fst
        = d.map Prod.fst := by
      rw [List.map_map]
      refine List.map_congr_left (fun p _ => ?_)
      by_cases h : p.1 = k <;> simp [h]
    rw [hmap]
    exact hnd
  · rw [if_neg hs]
    have hk : k ∉ d.map Prod.fst := by
      intro hmem
      exact hs ((dlookup_isSome_iff_mem k d).2 hmem)
    simp [List.nodup_append, hnd, hk]

/-- The per-signal analysis-bundle invariant of a `Scan` (spec §3):
every non-`"Time"` signal stored in `waveform_data` has a sampling
rate, exactly one scalar-metric bundle and exactly one derived-array
bundle, and the bundles are exactly the analyzer's output on the
stored waveform. -/
def ScanWfInv (pg : List ℚ → ℚ → List ℚ × List ℚ) (s : Scan) : Prop :=
  ∀ cavity sig, sig ≠ "Time" →
    ∀ data, dlookup cavity s.waveform_data = some data →
    ∀ vals, dlookup sig data = some vals →
    ∃ rate scal arrs,
      dlookup cavity s.sampling_rate = some rate ∧
      dlookup sig ((dlookup cavity s.analysis_scalar).getD []) = some scal ∧
      dlookup sig ((dlookup cavity s.analysis_array).getD []) = some arrs ∧
      Scan.analyze_signal pg (PyObj.ndarray (vals.map PyVal.num)) rate
        = .ok (scal, arrs) ∧
      countKey sig ((dlookup cavity s.analysis_scalar).getD []) = 1 ∧
      countKey sig ((dlookup cavity s.analysis_array).getD []) = 1

/-- The state after a sequence of `add_cavity_data` calls, keeping the
partially mutated state of calls that raise. -/
noncomputable def applyOps (pg : List ℚ → ℚ → List ℚ × List ℚ) :
    Scan → List (String × List (String × List ℚ) × ℚ) → Scan
  | s, [] => s
  | s, (cavity, data, rate) :: rest =>
    applyOps pg (Scan.add_cavity_data pg s cavity data rate).1 rest

/-- The state after a sequence of `add_cavity_data` calls, defined only
when every call succeeds (`none` as soon as one raises). -/
noncomputable def applyOpsE (pg : List ℚ → ℚ → List ℚ × List ℚ) :
    Scan → List (String × List (String × List ℚ) × ℚ) → Option Scan
  | s, [] => some s
  | s, (cavity, data, rate) :: rest =>
    match Scan.add_cavity_data pg s cavity data rate with
    | (s', none) => applyOpsE pg s' rest
    | (_, some _) => none

theorem addSignalsLoop_ok_spec (pg : List ℚ → ℚ → List ℚ × List ℚ)
    (cavity : String) (rate : ℚ) :
    ∀ (sigs : List (String × List ℚ)) (s s' : Scan),
      Scan.addSignalsLoop pg cavity rate s sigs = (s', none) →
      s'.waveform_data = s.waveform_data ∧
      s'.sampling_rate = s.sampling_rate ∧
      (∀ cav', cav' ≠ cavity →
        dlookup cav' s'.analysis_scalar = dlookup cav' s.analysis_scalar ∧
        dlookup cav' s'.analysis_array = dlookup cav' s.analysis_array) ∧
      (∀ sig, sig ∉ sigs.map Prod.fst →
        dlookup sig ((dlookup cavity s'.analysis_scalar).getD [])
          = dlookup sig ((dlookup cavity s.analysis_scalar).getD []) ∧
        dlookup sig ((dlookup cavity s'.analysis_array).getD [])
          = dlookup sig ((dlookup cavity s.analysis_array).getD [])) ∧
      ((sigs.map Prod.fst).Nodup →
        ∀ sig vals, sig ≠ "Time" → dlookup sig sigs = some vals →
        ∃ scal arrs,
          Scan.analyze_signal pg (PyObj.ndarray (vals.map PyVal.num)) rate
            = .ok (scal, arrs) ∧
          dlookup sig ((dlookup cavity s'.analysis_scalar).getD [])
            = some scal ∧
          dlookup sig ((dlookup cavity s'.analysis_array).getD [])
            = some arrs) ∧
      (((((dlookup cavity s.analysis_scalar).getD []).map Prod.fst).Nodup →
        (((dlookup cavity s'.analysis_scalar).getD []).map Prod.fst).Nodup) ∧
       ((((dlookup cavity s.analysis_array).getD []).map Prod.fst).Nodup →
        (((dlookup cavity s'.analysis_array).getD []).map Prod.fst).Nodup)) := by
  intro sigs
  induction sigs with
  | nil =>
    intro s s' h
    have hs : s = s' := congrArg Prod.fst h
    subst hs
    exact ⟨rfl, rfl, fun _ _ => ⟨rfl, rfl⟩, fun _ _ => ⟨rfl, rfl⟩,
      fun _ sig vals _ hl => absurd hl (by simp [dlookup]),
      fun h => h, fun h => h⟩
  | cons q rest ih =>
    intro s s' h
    obtain ⟨sig0, vals0⟩ := q
    by_cases ht : sig0 = "Time"
    · have hstep : Scan.addSignalsLoop pg cavity rate s ((sig0, vals0) :: rest)
          = Scan.addSignalsLoop pg cavity rate s rest := by
        simp [Scan.addSignalsLoop, ht]
      rw [hstep] at h
      obtain ⟨h1, h2, h3, h4, h5, h6⟩ := ih s s' h
      refine ⟨h1, h2, h3, ?_, ?_, h6⟩
      · intro sig hsig
        refine h4 sig (fun hmem => hsig ?_)
        simp only [List.map_cons, List.mem_cons]
        exact Or.inr hmem
      · intro hnd sig vals hsigt hlook
        simp only [List.map_cons, List.nodup_cons] at hnd
        have hne : ¬ sig = sig0 := fun hh => hsigt (hh.trans ht)
        simp only [dlookup, hne, if_false] at hlook
        exact h5 hnd.2 sig vals hsigt hlook
    · cases hres : Scan.analyze_signal pg
          (PyObj.ndarray (vals0.map PyVal.num)) rate with
      | error e =>
        have hstep : Scan.addSignalsLoop pg cavity rate s
            ((sig0, vals0) :: rest) = (s, some e) := by
          simp [Scan.addSignalsLoop, ht, hres]
        rw [hstep] at h
        exact absurd (congrArg Prod.snd h) (by simp)
      | ok pr =>
        obtain ⟨scal0, arrs0⟩ := pr
        set s1 : Scan :=
          { s with
            analysis_scalar := dictSet s.analysis_scalar cavity
              (dictSet ((dlookup cavity s.analysis_scalar).getD [])
                sig0 scal0),
            analysis_array := dictSet s.analysis_array cavity
              (dictSet ((dlookup cavity s.analysis_array).getD [])
                sig0 arrs0) } with hs1
        have hstep : Scan.addSignalsLoop pg cavity rate s
            ((sig0, vals0) :: rest)
            = Scan.addSignalsLoop pg cavity rate s1 rest := by
          simp [Scan.addSignalsLoop, ht, hres, hs1]
        rw [hstep] at h
        obtain ⟨h1, h2, h3, h4, h5, h6⟩ := ih s1 s' h
        have hinner_scal : (dlookup cavity s1.analysis_scalar).getD []
            = dictSet ((dlookup cavity s.analysis_scalar).getD [])
              sig0 scal0 := by
          rw [hs1]
          simp only
          rw [dlookup_dictSet]
          simp
        have hinner_arr : (dlookup cavity s1.analysis_array).getD []
            = dictSet ((dlookup cavity s.analysis_array).getD [])
              sig0 arrs0 := by
          rw [hs1]
          simp only
          rw [dlookup_dictSet]
          simp
        refine ⟨h1, h2, ?_, ?_, ?_, ?_, ?_⟩
        · intro cav' hcav
          obtain ⟨ha, hb⟩ := h3 cav' hcav
          constructor
          · rw [ha, hs1]
            simp only
            rw [dlookup_dictSet, if_neg hcav]
          · rw [hb, hs1]
            simp only
            rw [dlookup_dictSet, if_neg hcav]
        · intro sig hsig
          simp only [List.map_cons, List.mem_cons] at hsig
          push_neg at hsig
          obtain ⟨ha, hb⟩ := h4 sig hsig.2
          constructor
          · rw [ha, hinner_scal, dlookup_dictSet, if_neg hsig.1]
          · rw [hb, hinner_arr, dlookup_dictSet, if_neg hsig.1]
        · intro hnd sig vals hsigt hlook
          simp only [List.map_cons, List.nodup_cons] at hnd
          by_cases hss : sig = sig0
          · subst hss
            have hv : vals = vals0 := by
              simp only [dlookup, if_pos rfl] at hlook
              exact (Option.some.injEq _ _ ▸ hlook).symm
            subst hv
            refine ⟨scal0, arrs0, hres, ?_, ?_⟩
            · rw [(h4 sig hnd.1).1, hinner_scal, dlookup_dictSet, if_pos rfl]
            · rw [(h4 sig hnd.1).2, hinner_arr, dlookup_dictSet, if_pos rfl]
          · simp only [dlookup, hss, if_false] at hlook
            exact h5 hnd.2 sig vals hsigt hlook
        · intro hnds
          refine h6.1 ?_
          rw [hinner_scal]
          exact nodupKeys_dictSet sig0 scal0 hnds
        · intro hnda
          refine h6.2 ?_
          rw [hinner_arr]
          exact nodupKeys_dictSet sig0 arrs0 hnda

theorem add_cavity_data_ok_inv (pg : List ℚ → ℚ → List ℚ × List ℚ)
    (s : Scan) (cavity : String) (data : List (String × List ℚ)) (rate : ℚ)
    (hnd : (data.map Prod.fst).Nodup) (hInv : ScanWfInv pg s)
    (h : (Scan.add_cavity_data pg s cavity data rate).2 = none) :
    ScanWfInv pg (Scan.add_cavity_data pg s cavity data rate).1 := by
  set s0 : Scan :=
    { s with
      waveform_data := dictSet s.waveform_data cavity data,
      analysis_scalar := dictSet s.analysis_scalar cavity [],
      analysis_array := dictSet s.analysis_array cavity [],
      sampling_rate := dictSet s.sampling_rate cavity rate } with hs0
  have hdef : Scan.add_cavity_data pg s cavity data rate
      = Scan.addSignalsLoop pg cavity rate s0 data := by
    rw [hs0]
    rfl
  rw [hdef] at h ⊢
  cases hres : Scan.addSignalsLoop pg cavity rate s0 data with
  | mk sR oe =>
    rw [hres] at h
    have hoe : oe = none := h
    subst hoe
    obtain ⟨h1, h2, h3, h4, h5, h6⟩ :=
      addSignalsLoop_ok_spec pg cavity rate data s0 sR hres
    show ScanWfInv pg sR
    intro cav sig hsig data' hwf vals hvals
    rw [h1] at hwf
    have hwf0 : s0.waveform_data = dictSet s.waveform_data cavity data := by
      rw [hs0]
    rw [hwf0, dlookup_dictSet] at hwf
    have hrate0 : s0.sampling_rate = dictSet s.sampling_rate cavity rate := by
      rw [hs0]
    by_cases hceq : cav = cavity
    · subst hceq
      rw [if_pos rfl] at hwf
      have hdd : data' = data := by
        injection hwf with hw
        exact hw.symm
      subst hdd
      obtain ⟨scal, arrs, hok, hlscal, hlarr⟩ := h5 hnd sig vals hsig hvals
      have hinner0_scal : (dlookup cav s0.analysis_scalar).getD [] = [] := by
        rw [hs0]
        simp only
        rw [dlookup_dictSet]
        simp
      have hinner0_arr : (dlookup cav s0.analysis_array).getD [] = [] := by
        rw [hs0]
        simp only
        rw [dlookup_dictSet]
        simp
      have hnds : (((dlookup cav sR.analysis_scalar).getD []).map
          Prod.fst).Nodup := h6.1 (by rw [hinner0_scal]; simp)
      have hnda : (((dlookup cav sR.analysis_array).getD []).map
          Prod.fst).Nodup := h6.2 (by rw [hinner0_arr]; simp)
      refine ⟨rate, scal, arrs, ?_, hlscal, hlarr, hok, ?_, ?_⟩
      · rw [h2, hrate0, dlookup_dictSet, if_pos rfl]
      · exact countKey_eq_one_of_nodup hnds (by rw [hlscal]; rfl)
      · exact countKey_eq_one_of_nodup hnda (by rw [hlarr]; rfl)
    · rw [if_neg hceq] at hwf
      obtain ⟨rate', scal, arrs, hr, hsc, har, hok, hc1, hc2⟩ :=
        hInv cav sig hsig data' hwf vals hvals
      obtain ⟨ha3, hb3⟩ := h3 cav hceq
      have hscal_eq : dlookup cav sR.analysis_scalar
          = dlookup cav s.analysis_scalar := by
        rw [ha3, hs0]
        simp only
        rw [dlookup_dictSet, if_neg hceq]
      have harr_eq : dlookup cav sR.analysis_array
          = dlookup cav s.analysis_array := by
        rw [hb3, hs0]
        simp only
        rw [dlookup_dictSet, if_neg hceq]
      refine ⟨rate', scal, arrs, ?_, ?_, ?_, hok, ?_, ?_⟩
      · rw [h2, hrate0, dlookup_dictSet, if_neg hceq]
        exact hr
      · rw [hscal_eq]
        exact hsc
      · rw [harr_eq]
        exact har
      · rw [hscal_eq]
        exact hc1
      · rw [harr_eq]
        exact hc2

theorem applyOpsE_inv (pg : List ℚ → ℚ → List ℚ × List ℚ) :
    ∀ (ops : List (String × List (String × List ℚ) × ℚ)) (s s' : Scan),
      (∀ op ∈ ops, ((op.2.1.map Prod.fst : List String)).Nodup) →
      ScanWfInv pg s →
      applyOpsE pg s ops = some s' →
      ScanWfInv pg s' := by
  intro ops
  induction ops with
  | nil =>
    intro s s' _ hInv h
    have : s = s' := by
      simp only [applyOpsE, Option.some.injEq] at h
      exact h
    rw [← this]
    exact hInv
  | cons op rest ih =>
    intro s s' hnd hInv h
    obtain ⟨cavity, data, rate⟩ := op
    have hstep : applyOpsE pg s ((cavity, data, rate) :: rest)
        = match Scan.add_cavity_data pg s cavity data rate with
          | (s1, none) => applyOpsE pg s1 rest
          | (_, some _) => none := rfl
    rw [hstep] at h
    cases hres : Scan.add_cavity_data pg s cavity data rate with
    | mk s1 oe =>
      rw [hres] at h
      cases oe with
      | some e => simp at h
      | none =>
        simp only at h
        have hnd0 : (data.map Prod.fst).Nodup := by
          have := hnd (cavity, data, rate) (List.mem_cons_self _ _)
          simpa using this
        have hInv1 : ScanWfInv pg s1 := by
          have h2 : (Scan.add_cavity_data pg s cavity data rate).2 = none := by
            rw [hres]
          have := add_cavity_data_ok_inv pg s cavity data rate hnd0 hInv h2
          rw [hres] at this
          exact this
        exact ih s1 s' (fun op hop => hnd op (List.mem_cons.2 (Or.inr hop)))
          hInv1 h

/-- C9 (amended): in every state reachable from a fresh `Scan` by a
sequence of successful `add_cavity_data` calls (each data dict having
Python-dict-unique signal keys), every non-`"Time"` signal present in
`waveform_data` has a sampling rate, exactly one scalar-metrics bundle
and exactly one derived-array bundle, equal to the analyzer's output on
the stored waveform at the stored rate. -/
theorem Scan.add_cavity_data_invariant (pg : List ℚ → ℚ → List ℚ × List ℚ)
    (start_ end_ : String) (sid : Option ℕ)
    (ops : List (String × List (String × List ℚ) × ℚ)) (s' : Scan)
    (hnd : ∀ op ∈ ops, ((op.2.1.map Prod.fst : List String)).Nodup)
    (h : applyOpsE pg (Scan.init start_ end_ sid) ops = some s') :
    ScanWfInv pg s' := by
  refine applyOpsE_inv pg ops (Scan.init start_ end_ sid) s' hnd ?_ h
  intro cav sig hsig data hwf
  exact absurd hwf (by simp [Scan.init, dlookup])

theorem Scan.add_cavity_data_invariant_witness :
    (∀ op ∈ [("R1", [("Time", ([] : List ℚ))], (5000 : ℚ))],
      ((op.2.1.map Prod.fst : List String)).Nodup) ∧
    applyOpsE pgZero (Scan.init "s" "e" none)
        [("R1", [("Time", [])], 5000)]
      = some ((Scan.add_cavity_data pgZero (Scan.init "s" "e" none) "R1"
          [("Time", [])] 5000).1) ∧
    ScanWfInv pgZero ((Scan.add_cavity_data pgZero (Scan.init "s" "e" none)
        "R1" [("Time", [])] 5000).1) := by
  refine ⟨by simp, rfl, ?_⟩
  exact Scan.add_cavity_data_invariant pgZero "s" "e" none
    [("R1", [("Time", [])], 5000)] _ (by simp) rfl

/-- C9 counterexample: one raising `add_cavity_data` call (a
non-`"Time"` signal of length 3) reaches a state where the signal is
present in `waveform_data` but has no scalar bundle — so the claim
fails for sequences that include raising calls: `add_cavity_data`
mutates `waveform_data` before the analysis loop raises. -/
theorem Scan.add_cavity_data_partial_example :
    (Scan.add_cavity_data pgZero (Scan.init "s" "e" none) "R1"
        [("GMES", [1, 2, 3])] 5000).2.isSome = true ∧
    applyOps pgZero (Scan.init "s" "e" none)
        [("R1", [("GMES", [1, 2, 3])], 5000)]
      = (Scan.add_cavity_data pgZero (Scan.init "s" "e" none) "R1"
          [("GMES", [1, 2, 3])] 5000).1 ∧
    dlookup "GMES" ((dlookup "R1" (Scan.add_cavity_data pgZero
        (Scan.init "s" "e" none) "R1"
        [("GMES", [1, 2, 3])] 5000).1.waveform_data).getD [])
      = some [1, 2, 3] ∧
    dlookup "GMES" ((dlookup "R1" (Scan.add_cavity_data pgZero
        (Scan.init "s" "e" none) "R1"
        [("GMES", [1, 2, 3])] 5000).1.analysis_scalar).getD [])
      = none ∧
    ¬ ScanWfInv pgZero (Scan.add_cavity_data pgZero
        (Scan.init "s" "e" none) "R1" [("GMES", [1, 2, 3])] 5000).1 := by
  refine ⟨rfl, rfl, rfl, rfl, ?_⟩
  intro hInv
  obtain ⟨rate, scal, arrs, _, hsc, _⟩ :=
    hInv "R1" "GMES" (by decide) [("GMES", [1, 2, 3])] rfl [1, 2, 3] rfl
  have : (none : Option (List (String × ℝ))) = some scal := by
    rw [← hsc]
    rfl
  exact Option.noConfusion this

end Rfscopedb
